import Mathlib

/-!
Verification of the EasyNER database layer: a shallow embedding of the
ingestion pipeline (`scripts/database/db_convert_json_to_sqlite_copy.py`,
`scripts/database/json_to_sqlite.py`) and of the analytics passes
(`scripts/db_easyner.py`, `scripts/db_statistics.py`).

Tables are embedded as Lean lists of row structures, one structure per SQL
row shape.  SQLite transaction semantics are made explicit: a transaction
either commits (all buffered writes applied) or rolls back (state
unchanged).  `NULL`-able columns are `Option`; REAL columns are `ℝ` (or `ℚ`
where the source only ever stores exact literals).  Where a source function
can raise, the embedding takes an explicit failure flag describing at which
statement the exception is raised, and produces the state the `except` /
`finally` handlers leave behind.
-/

namespace EasyNER

/-! ## Ingestion model: `db_convert_json_to_sqlite_copy.py`

The threaded bulk loader: `process_json_file` parses one JSON batch file,
`insert_data` writes one parsed file inside a single transaction (data rows
and the `source_files` ledger row together) and `load_json_to_db` drives the
whole run, set-differencing the candidate file list against the ledger
loaded up front. -/

namespace CopyLoader

/-- One sentence of the input JSON: text, the three counts (`sentence.get`
with default `0`), the per-entity-type mention texts and the parallel span
lists. -/
structure SentenceJson where
  text : String
  wordCount : Int
  tokenCount : Int
  alphaCount : Int
  entities : List (String × List String)
  entitySpans : List (String × List (Int × Int))
deriving DecidableEq, Repr

/-- One document of the input JSON.  `title = none` models a document whose
mapping is missing the required `"title"` key (the `KeyError` path of
`insert_data`). -/
structure DocumentJson where
  title : Option String
  sentences : List SentenceJson
deriving DecidableEq, Repr

/-- A parsed batch file: mapping from document id to document, in iteration
order. -/
abbrev FileData := List (Nat × DocumentJson)

/-- A row of the `sentences` table; `rowid` is SQLite's integer primary
key, assigned sequentially on insert. -/
structure SentenceRow where
  rowid : Nat
  text : String
  sentenceIndex : Nat
  documentId : Nat
  wordCount : Int
  tokenCount : Int
  alphaCount : Int
deriving DecidableEq, Repr

/-- A row of the `entity_occurrences` table as inserted by this loader:
`(entity_text, span_start, span_end, entity_id, sentence_id)`. -/
structure OccurrenceRow where
  entityText : String
  spanStart : Int
  spanEnd : Int
  entityId : Nat
  sentenceId : Nat
deriving DecidableEq, Repr

/-- The data tables the writer fills: `documents (id, title)`, `sentences`,
`named_entities (id, named_entity)` and `entity_occurrences`. -/
structure Store where
  documents : List (Nat × String)
  sentences : List SentenceRow
  namedEntities : List (Nat × String)
  entityOccurrences : List OccurrenceRow
deriving DecidableEq, Repr

/-- The whole store: data tables plus the `source_files` ingestion ledger
(file names; `inserted_at` timestamps are irrelevant to the claims). -/
structure DB where
  store : Store
  sourceFiles : List String
deriving DecidableEq, Repr

/-- `INSERT OR IGNORE INTO documents (id, title)`: the row is dropped when a
document with that id already exists. -/
def insert_or_ignore_document (docs : List (Nat × String)) (docId : Nat)
    (title : String) : List (Nat × String) :=
  if docs.any (fun d => d.1 == docId) then docs else docs ++ [(docId, title)]

/-- The sentence rows of one document, rowids continuing from `nextRowid`
and `sentence_index` counting from `idx`. -/
def sentence_rows_from (docId nextRowid idx : Nat) :
    List SentenceJson → List SentenceRow
  | [] => []
  | s :: ss =>
    ⟨nextRowid, s.text, idx, docId, s.wordCount, s.tokenCount, s.alphaCount⟩
      :: sentence_rows_from docId (nextRowid + 1) (idx + 1) ss

/-- Batched `INSERT INTO sentences`: all sentence rows of the document are
appended, rowids continuing from the current table size + 1. -/
def insert_sentences (rows : List SentenceRow) (docId : Nat)
    (ss : List SentenceJson) : List SentenceRow :=
  rows ++ sentence_rows_from docId (rows.length + 1) 0 ss

/-- `SELECT id FROM sentences WHERE document_id = ? AND sentence_index = ?`:
first matching row wins (the query has no ORDER BY; SQLite scans in rowid
order). -/
def lookup_sentence_id (rows : List SentenceRow) (docId idx : Nat) :
    Option Nat :=
  (rows.find? (fun r => r.documentId == docId && r.sentenceIndex == idx)).map
    (·.rowid)

/-- `SELECT id FROM named_entities WHERE named_entity = ?`, inserting the
name when absent; the fresh id is SQLite's `lastrowid`, i.e. the successor
of the largest id present. -/
def get_or_insert_named_entity (nes : List (Nat × String)) (name : String) :
    List (Nat × String) × Nat :=
  match nes.find? (fun e => e.2 == name) with
  | some e => (nes, e.1)
  | none =>
    let newId := (nes.map (·.1)).foldr max 0 + 1
    (nes ++ [(newId, name)], newId)

/-- One append to the per-document occurrence buffer: the source appends
one row to the `entity_occurrences` list and flushes it with `executemany`
as soon as it holds 1000 rows. -/
def buffer_append (st : Store) (buf : List OccurrenceRow)
    (o : OccurrenceRow) : Store × List OccurrenceRow :=
  let buf' := buf ++ [o]
  if 1000 ≤ buf'.length then
    ({ st with entityOccurrences := st.entityOccurrences ++ buf' }, [])
  else (st, buf')

/-- Appending a run of occurrence rows to the buffer, one at a time. -/
def buffer_append_all : Store → List OccurrenceRow → List OccurrenceRow →
    Store × List OccurrenceRow
  | st, buf, [] => (st, buf)
  | st, buf, o :: os =>
    let r := buffer_append st buf o
    buffer_append_all r.1 r.2 os

/-- The entity loop of `insert_data` for one sentence, over the remaining
entity types: resolve or create each type's `named_entities` id, then
buffer one occurrence row per (mention text, span) pair (`zip` mirrors
Python's `zip`, truncating to the shorter list).  A type absent from
`entity_spans` raises `KeyError` at `sentence["entity_spans"][entity]` —
AFTER its `named_entities` row was resolved or created — and the returned
`false` reports the abort: the per-document handler catches it, skipping
every remaining type and sentence of the document. -/
def insert_entity_types (sentId : Nat) (s : SentenceJson) (st : Store)
    (buf : List OccurrenceRow) :
    List (String × List String) → Store × List OccurrenceRow × Bool
  | [] => (st, buf, true)
  | p :: ps =>
    let r := get_or_insert_named_entity st.namedEntities p.1
    let st1 := { st with namedEntities := r.1 }
    match s.entitySpans.lookup p.1 with
    | none => (st1, buf, false)
    | some spans =>
      let rb := buffer_append_all st1 buf
        ((p.2.zip spans).map (fun q => OccurrenceRow.mk q.1 q.2.1 q.2.2 r.2 sentId))
      insert_entity_types sentId s rb.1 rb.2 ps

/-- The occurrence phase of `insert_data` over the document's sentences,
indexed from `idx`: a sentence with an empty `entities` mapping is skipped
outright; otherwise its rowid is looked up by `(document_id,
sentence_index)` and, when found, its entities are buffered (a failed
lookup is logged and the sentence skipped).  A `KeyError` reported by the
entity loop aborts the remaining sentences. -/
def insert_entities_from (st : Store) (buf : List OccurrenceRow)
    (docId idx : Nat) :
    List SentenceJson → Store × List OccurrenceRow × Bool
  | [] => (st, buf, true)
  | s :: ss =>
    if s.entities.isEmpty then insert_entities_from st buf docId (idx + 1) ss
    else
      match lookup_sentence_id st.sentences docId idx with
      | none => insert_entities_from st buf docId (idx + 1) ss
      | some sid =>
        let r := insert_entity_types sid s st buf s.entities
        if r.2.2 then insert_entities_from r.1 r.2.1 docId (idx + 1) ss
        else (r.1, r.2.1, false)

/-- One document of the `insert_data` loop.  A document whose `title` key
is missing raises `KeyError` before any write, is logged and skipped
(`false`); otherwise its document row (insert-or-ignore) and its sentence
rows are written, and its occurrences are buffered: on the non-raising
path the final `executemany` flushes the rest of the buffer and the
document counts as inserted (`true`), while a `KeyError` in the entity
phase leaves the rows written so far (full 1000-row flushes included),
DISCARDS the unflushed buffer, and the document does not count. -/
def process_document (st : Store) (docId : Nat) (doc : DocumentJson) :
    Store × Bool :=
  match doc.title with
  | none => (st, false)
  | some title =>
    let st1 := { st with
      documents := insert_or_ignore_document st.documents docId title }
    let st2 := { st1 with
      sentences := insert_sentences st1.sentences docId doc.sentences }
    let r := insert_entities_from st2 [] docId 0 doc.sentences
    if r.2.2 then
      ({ r.1 with entityOccurrences := r.1.entityOccurrences ++ r.2.1 }, true)
    else (r.1, false)

/-- The document loop of `insert_data`: writes every document of the parsed
file into the (uncommitted) store, returning the number inserted. -/
def run_insert (st : Store) : FileData → Store × Nat
  | [] => (st, 0)
  | d :: ds =>
    let r := process_document st d.1 d.2
    let rest := run_insert r.1 ds
    (rest.1, (if r.2 then 1 else 0) + rest.2)

/-- `INSERT OR REPLACE INTO source_files (file_name, inserted_at)`:
`file_name` is the key, so an existing entry is replaced in place (the
ledger, projected to file names, gains the name at most once). -/
def ledger_add (l : List String) (f : String) : List String :=
  if f ∈ l then l else l ++ [f]

/-- `insert_data conn data json_file`: one transaction per file containing
every data row and the ledger row.  `commitFails = true` models any
exception raised inside the transaction before `conn.commit()` (a storage
error, the ledger insert failing, the commit itself failing): the handler
logs, calls `conn.rollback()` and returns 0, leaving the store exactly as
before.  On success the call returns the number of documents inserted. -/
def insert_data (db : DB) (data : FileData) (fileName : String)
    (commitFails : Bool) : DB × Nat :=
  if commitFails then (db, 0)
  else
    let r := run_insert db.store data
    (⟨r.1, ledger_add db.sourceFiles fileName⟩, r.2)

/-- Documents of a batch that survive validation (title present). -/
def valid_docs (data : FileData) : FileData :=
  data.filter (fun d => d.2.title.isSome)

/-- Number of sentence rows the batch derives: one per sentence of each
valid document. -/
def batch_sentence_count (data : FileData) : Nat :=
  ((valid_docs data).map (fun d => d.2.sentences.length)).sum

/-- Number of occurrence rows one sentence derives on a span-complete
batch (see `span_complete`): none when its `entities` mapping is empty,
otherwise one per (mention, span) pair of each entity type. -/
def sentence_occ_count (s : SentenceJson) : Nat :=
  if s.entities.isEmpty then 0
  else (s.entities.map
    (fun p => min p.2.length ((s.entitySpans.lookup p.1).getD []).length)).sum

/-- Number of occurrence rows a span-complete batch derives. -/
def batch_occ_count (data : FileData) : Nat :=
  ((valid_docs data).map
    (fun d => (d.2.sentences.map sentence_occ_count).sum)).sum

/-- Entity types a span-complete batch seeds into the `named_entities`
dictionary: every type named by a nonempty-`entities` sentence of a valid
document. -/
def batch_entity_types (data : FileData) : List String :=
  (valid_docs data).flatMap
    (fun d => d.2.sentences.flatMap
      (fun s => if s.entities.isEmpty then [] else s.entities.map (·.1)))

/-- The documented input format (every entity type's mention list has a
parallel span list): on such a batch the entity loop never raises
`KeyError`, so no document is aborted half-way through its occurrence
phase. -/
def span_complete (data : FileData) : Prop :=
  ∀ d ∈ data, ∀ s ∈ d.2.sentences, ∀ p ∈ s.entities,
    (s.entitySpans.lookup p.1).isSome

/-- One candidate input file of a pipeline run: its name, its parsed
content, whether `json.load` succeeds on it (`parseOk`) and whether its
transaction fails before commit (`commitFails`).  Both flags are properties
of the file and environment, fixed across the runs compared here. -/
structure IngestFile where
  name : String
  data : FileData
  parseOk : Bool
  commitFails : Bool
deriving DecidableEq, Repr

/-- The writer's handling of one queued file: a file that failed to parse
was never queued; otherwise `insert_data` commits it or rolls back. -/
def writer_step (db : DB) (f : IngestFile) : DB :=
  if f.parseOk then (insert_data db f.data f.name f.commitFails).1 else db

/-- `load_json_to_db`: the ledger is loaded once, the candidate list is
set-differenced against it, and the writer (the sole consumer) commits the
surviving files one at a time. -/
def load_json_to_db (db : DB) (files : List IngestFile) : DB :=
  let processed := db.sourceFiles
  (files.filter (fun f => !processed.contains f.name)).foldl writer_step db

end CopyLoader

/-! ## Ingestion model: `json_to_sqlite.py`

The chunked loader: `process_chunk` turns a chunk of documents into four
row collections (clearing the chunk in a `finally`), `batch_insert` /
`insert_data` write them (clearing the collections as they go) and
`json_to_sqlite` loops over the new files, recording each in
`source_files` in a `finally` block. -/

namespace ChunkedLoader

/-- One sentence of the chunked loader's input JSON (same shape as the
threaded loader's, but the counts are required keys here). -/
structure ChunkSentence where
  text : String
  wordCount : Int
  tokenCount : Int
  alphaCount : Int
  entities : List (String × List String)
  entitySpans : List (String × List (Int × Int))
deriving DecidableEq, Repr

/-- One document of a chunk; every key is required (`process_chunk` has no
per-document handler, a missing key fails the whole file). -/
structure ChunkDoc where
  title : String
  sentences : List ChunkSentence
deriving DecidableEq, Repr

/-- A document-row tuple `(doc_id, title, 0, 0, 0)`: the three counters are
zeroed, to be filled by later passes. -/
structure DocRow where
  id : Nat
  title : String
  wordCount : Int
  tokenCount : Int
  alphaCount : Int
deriving DecidableEq, Repr

/-- A sentence-row tuple
`(text, sent_idx_local, doc_id, word_count, token_count, alpha_count)`. -/
structure SentRow where
  text : String
  sentenceIndex : Nat
  documentId : Nat
  wordCount : Int
  tokenCount : Int
  alphaCount : Int
deriving DecidableEq, Repr

/-- An occurrence-row tuple `(None, entity, span_start, span_end,
entity_id, sent_idx_local, 0, 0.0, 0, 0.0, 0.0)`: id left to SQLite, the
statistics columns seeded with zero.  The REAL columns carry exact
literals only, so `ℚ` embeds them. -/
structure OccRow where
  entityText : String
  spanStart : Int
  spanEnd : Int
  entityId : Nat
  sentenceId : Nat
  intraDocFq : Int
  tf : ℚ
  interDocFq : Int
  tfIdf : ℚ
  idf : ℚ
deriving DecidableEq, Repr

/-- The fixed entity-type dictionary of `process_chunk`:
`{'disease': 1, 'phenomenon': 2}`. -/
def fixed_named_entities : List (String × Nat) :=
  [("disease", 1), ("phenomenon", 2)]

/-- The four collections `insert_data` receives (documents, sentences, the
entity-type dictionary, occurrences), modelling the mutable Python lists /
dict passed by reference. -/
structure Collections where
  documents : List DocRow
  sentences : List SentRow
  namedEntities : List (String × Nat)
  entityOccurrences : List OccRow
deriving DecidableEq, Repr

/-- Row derivation of `process_chunk` for one document: its document tuple,
its sentence tuples, and its occurrence tuples.  An entity type missing
from the fixed dictionary or a span list shorter than its mention list
raises in the source and fails the whole file (see `file_step`); the
derivation is used on the non-raising inputs.  Note the source stores the
LOCAL sentence index as `sentence_id` in the occurrence tuple. -/
def doc_rows (docId : Nat) (doc : ChunkDoc) :
    DocRow × List SentRow × List OccRow :=
  (⟨docId, doc.title, 0, 0, 0⟩,
   (List.range doc.sentences.length).zip doc.sentences |>.map
     (fun p => ⟨p.2.text, p.1, docId, p.2.wordCount, p.2.tokenCount,
                p.2.alphaCount⟩),
   (List.range doc.sentences.length).zip doc.sentences |>.flatMap
     (fun p => p.2.entities.flatMap
       (fun e =>
         let eid := ((fixed_named_entities.lookup e.1).getD 0)
         (e.2.zip ((p.2.entitySpans.lookup e.1).getD [])).map
           (fun q => OccRow.mk q.1 q.2.1 q.2.2 eid p.1 0 0 0 0 0))))

/-- `process_chunk`: derives the four row collections from a chunk and
returns them together with the final state of the caller's chunk mapping,
which the `finally` block ALWAYS clears (the pre-allocation and trimming of
the source are memory management; the surviving rows are exactly the
derived ones in order). -/
def process_chunk (chunk : List (Nat × ChunkDoc)) :
    (List DocRow × List SentRow × List (String × Nat) × List OccRow)
      × List (Nat × ChunkDoc) :=
  ((chunk.map (fun d => (doc_rows d.1 d.2).1),
    chunk.flatMap (fun d => (doc_rows d.1 d.2).2.1),
    fixed_named_entities,
    chunk.flatMap (fun d => (doc_rows d.1 d.2).2.2)),
   [])

/-- The collection states `insert_data` leaves behind.  `failStep = some i`
models the i-th `batch_insert` call raising (0 = documents, 1 = sentences,
2 = named entities, 3 = occurrences); `none` is the normal path.  Facts
from the source used here: `batch_insert` clears the list it was passed in
a `finally`, so even a raising call empties its own collection; the
explicit `.clear()` after each call runs only when the call returned; the
entity-type rows are a FRESH list built from the dict, so the dict itself
is emptied only by the `.clear()` on the normal path.  The returned `Bool`
is `true` iff the call returns normally (otherwise the exception handler
rolls the transaction back and re-raises). -/
def insert_data_collections (c : Collections) (failStep : Option Nat) :
    Collections × Bool :=
  let c0 : Collections := { c with documents := [] }
  if failStep = some 0 then (c0, false)
  else
    let c1 : Collections := { c0 with sentences := [] }
    if failStep = some 1 then (c1, false)
    else if failStep = some 2 then (c1, false)
    else
      let c2 : Collections := { c1 with namedEntities := [] }
      let c3 : Collections := { c2 with entityOccurrences := [] }
      if failStep = some 3 then (c3, false) else (c3, true)

/-- The store the chunked pipeline accumulates: committed chunk insertions
(abstracted as the file name and chunk index each commit covered, since
each chunk's `insert_data` commits its own transaction) and the
`source_files` ledger. -/
structure LedgerDB where
  chunks : List (String × Nat)
  sourceFiles : List String
deriving DecidableEq, Repr

/-- One iteration of the per-file loop of `json_to_sqlite` over a file
with `chunkCount` chunks.  `failAtChunk = some k` models an exception
raised while processing the k-th chunk (with `some 0` also covering
`json.load` itself raising): the chunks before it are already committed,
the `except` branch logs and moves on — but the `finally` block records the
file in `source_files` REGARDLESS of whether the file succeeded. -/
def file_step (db : LedgerDB) (fileName : String) (chunkCount : Nat)
    (failAtChunk : Option Nat) : LedgerDB :=
  let okChunks := match failAtChunk with
    | none => chunkCount
    | some k => min k chunkCount
  { chunks := db.chunks ++ (List.range okChunks).map (fun i => (fileName, i)),
    sourceFiles := db.sourceFiles ++ [fileName] }

/-- The scan phase of `json_to_sqlite`: candidate files whose (base) name
is not yet in the ledger. -/
def select_new_files (files : List String) (processed : List String) :
    List String :=
  files.filter (fun f => !processed.contains f)

end ChunkedLoader

/-! ## Co-occurrence recording: `db_easyner.py`, `record_entity_cooccurrences`

Self-join of `entity_occurrences` on `sentence_id`, the left side filtered
to the first requested type's id, the right side to the second's, each
fetched pair inserted into `entity_cooccurrences`. -/

namespace Cooc

/-- A row of `entity_occurrences` as this module reads it. -/
structure EOcc where
  id : Nat
  entityText : String
  entityId : Nat
  sentenceId : Nat
deriving DecidableEq, Repr

/-- A row of `entity_cooccurrences` (the autoincrement id and the
`coentity_summary_id` column play no role here). -/
structure CoocRow where
  e1NEId : Nat
  e2NEId : Nat
  e1Text : String
  e2Text : String
  e1Id : Nat
  e2Id : Nat
  sentenceId : Nat
deriving DecidableEq, Repr

/-- The tables `record_entity_cooccurrences` touches. -/
structure DB where
  entities : List (Nat × String)
  occurrences : List EOcc
  cooccurrences : List CoocRow
deriving DecidableEq, Repr

/-- `SELECT ... FROM entity_occurrences eo1 JOIN entity_occurrences eo2 ON
eo1.sentence_id = eo2.sentence_id WHERE eo1.entity_id = ? AND
eo2.entity_id = ?`. -/
def cooc_join (occs : List EOcc) (id1 id2 : Nat) : List (EOcc × EOcc) :=
  (occs.filter (fun o1 => o1.entityId == id1)).flatMap
    (fun o1 =>
      (occs.filter
        (fun o2 => o1.sentenceId == o2.sentenceId && o2.entityId == id2)).map
        (fun o2 => (o1, o2)))

/-- `record_entity_cooccurrences(e1, e2)`: resolves the two type names to
ids (returning unchanged when either is absent), fetches the join and
inserts every fetched pair.  The insert is `INSERT OR IGNORE`, but the
`entity_cooccurrences` table created by this very function declares no
UNIQUE constraint besides its autoincrement primary key, so `OR IGNORE`
never suppresses a row: every fetched pair is appended unconditionally. -/
def record_entity_cooccurrences (db : DB) (e1 e2 : String) : DB :=
  match db.entities.find? (fun p => p.2 == e1),
        db.entities.find? (fun p => p.2 == e2) with
  | some p1, some p2 =>
    let newRows : List CoocRow :=
      (cooc_join db.occurrences p1.1 p2.1).map
        (fun q => ⟨p1.1, p2.1, q.1.entityText, q.2.entityText,
                   q.1.id, q.2.id, q.1.sentenceId⟩)
    { db with cooccurrences := db.cooccurrences ++ newRows }
  | _, _ => db

/-- Number of `entity_cooccurrences` rows recorded for a given pair of
mention texts (the `count_cooccurence` query). -/
def count_pair (rows : List CoocRow) (t1 t2 : String) : Nat :=
  (rows.filter (fun r => r.e1Text == t1 && r.e2Text == t2)).length

end Cooc

/-! ## Frequency / TF-IDF passes: `db_statistics.py` and
`db_easyner.py.count_entity_fq`

Batched passes over `entity_occurrences`: `add_pmid_to_entity_occurrences`
copies the owning article id onto each occurrence,
`update_db_with_entity_occurrence_term_fq` fills `intra_doc_fq` and `tf`,
`count_entity_fq` builds the `entity_fq` table (per-group total and
distinct-document counts) and `update_tf_idf` fills `idf`, `inter_doc_fq`
and `tf_idf`.  REAL columns are embedded as `ℝ` (`np.log` becomes
`Real.log`); NULL-able columns as `Option`.  The LIMIT/OFFSET pagination of
the source bounds memory and does not change which rows are written, so
each pass is embedded as one traversal. -/

namespace Stats

/-- A row of `articles`: document id and its word count. -/
structure Article where
  pmid : Nat
  wordCount : Int
deriving DecidableEq, Repr

/-- A row of `sentences` as these passes read it: rowid and owning
article. -/
structure SentenceRec where
  id : Nat
  pmid : Nat
deriving DecidableEq, Repr

/-- A row of `entity_occurrences` with the statistics columns. -/
structure Occ where
  id : Nat
  entityText : String
  entityId : Nat
  sentenceId : Nat
  pmid : Option Nat
  intraDocFq : Option Int
  tf : Option ℝ
  interDocFq : Option Int
  tfIdf : Option ℝ
  idf : Option ℝ

/-- A row of the `entity_fq` table. -/
structure EntityFqRow where
  entityId : Nat
  entityText : String
  fq : Nat
  docFq : Nat
deriving DecidableEq, Repr

/-- The store the analytics passes operate on. -/
structure DB where
  articles : List Article
  sentences : List SentenceRec
  occurrences : List Occ
  entityFq : List EntityFqRow

/-- `add_pmid_to_entity_occurrences`: for rows whose `pmid` is NULL, copy
the owning sentence's `pmid` (the correlated subquery; no matching sentence
leaves NULL). -/
def add_pmid_to_entity_occurrences (db : DB) : DB :=
  { db with occurrences := db.occurrences.map (fun o =>
      match o.pmid with
      | some _ => o
      | none =>
        let looked :=
          (db.sentences.find? (fun s => s.id == o.sentenceId)).map (·.pmid)
        { o with pmid := looked }) }

/-- The correlated count of
`update_db_with_entity_occurrence_term_fq`: occurrences sharing
`entity_text`, `entity_id` and `pmid` with the given row.  The updates of
the pass touch only `intra_doc_fq` and `tf`, never these three grouping
columns, so the count is stable across the batch loop and is taken against
the initial table. -/
def intra_doc_count (occs : List Occ) (text : String) (eid : Nat) (p : Nat) :
    Nat :=
  (occs.filter
    (fun o => o.entityText == text && o.entityId == eid && o.pmid == some p)).length

/-- `update_db_with_entity_occurrence_term_fq`: every occurrence whose
`pmid` joins an article is updated:
`intra_doc_fq` is set to the correlated count, and
`tf = intra_doc_fq * 1.0 / word_count`.  SQL evaluates every expression of
an UPDATE's SET clause against the PRE-update row, so the division reads
the OLD `intra_doc_fq`, not the count just assigned; SQLite propagates NULL
through the arithmetic and yields NULL on division by zero. -/
noncomputable def update_db_with_entity_occurrence_term_fq (db : DB) : DB :=
  { db with occurrences := db.occurrences.map (fun o =>
      match o.pmid with
      | none => o
      | some p =>
        match db.articles.find? (fun a => a.pmid == p) with
        | none => o
        | some a =>
          { o with
            intraDocFq :=
              some (intra_doc_count db.occurrences o.entityText o.entityId p),
            tf :=
              match o.intraDocFq with
              | none => none
              | some v =>
                if a.wordCount = 0 then none
                else some ((v : ℝ) / (a.wordCount : ℝ)) }) }

/-- Grouping key of the frequency passes: `(entity_id, entity_text)`. -/
def occ_key (o : Occ) : Nat × String := (o.entityId, o.entityText)

/-- `GROUP BY entity_id, entity_text` over `entity_occurrences`: the
distinct group keys. -/
def fq_groups (occs : List Occ) : List (Nat × String) :=
  (occs.map occ_key).dedup

/-- Per-group total occurrence count (`COUNT(*)`). -/
def group_fq (occs : List Occ) (k : Nat × String) : Nat :=
  (occs.filter (fun o => decide (occ_key o = k))).length

/-- The `JOIN sentences s ON eo.sentence_id = s.id` of `count_entity_fq`,
resolving each occurrence to its owning article id (sentence rowids are
unique, so the first match is the match). -/
def occ_joins_sentence (db : DB) (o : Occ) : Option Nat :=
  (db.sentences.find? (fun s => s.id == o.sentenceId)).map (·.pmid)

/-- The joined rows: occurrences paired with their article id; occurrences
whose sentence is missing fall out of the inner join. -/
def joined_occs (db : DB) : List (Occ × Nat) :=
  db.occurrences.filterMap
    (fun o => (occ_joins_sentence db o).map (fun p => (o, p)))

/-- Group keys of the joined query (`GROUP BY` over the join). -/
def doc_fq_groups (db : DB) : List (Nat × String) :=
  ((joined_occs db).map (fun x => occ_key x.1)).dedup

/-- Per-group `COUNT(DISTINCT s.pmid)`: in how many documents the group's
mentions appear. -/
def group_doc_fq (db : DB) (k : Nat × String) : Nat :=
  ((((joined_occs db).filter (fun x => decide (occ_key x.1 = k))).map
    (fun x => x.2)).dedup).length

/-- The rows `count_entity_fq` inserts: the total-count query zipped
against the distinct-document query, row by row (the source zips the two
fetches). -/
def entity_fq_inserted (db : DB) : List EntityFqRow :=
  (((fq_groups db.occurrences).map
      (fun k => (k, group_fq db.occurrences k))).zip
    ((doc_fq_groups db).map (fun k => (k, group_doc_fq db k)))).map
    (fun q => ⟨q.1.1.1, q.1.1.2, q.1.2, q.2.2⟩)

/-- The final `ORDER BY fq DESC, entity_text ASC` rewrite of the
`entity_fq` table. -/
def entity_fq_order (a b : EntityFqRow) : Bool :=
  b.fq < a.fq || (a.fq == b.fq && a.entityText ≤ b.entityText)

/-- `count_entity_fq`: appends the computed frequency rows to the
`entity_fq` table (CREATE TABLE IF NOT EXISTS keeps existing rows) and
rewrites the table in sorted order. -/
def count_entity_fq (db : DB) : DB :=
  { db with entityFq :=
      (db.entityFq ++ entity_fq_inserted db).mergeSort entity_fq_order }

/-- `SELECT COUNT(DISTINCT pmid) FROM articles`: the total number of
documents in the store. -/
def article_count (db : DB) : Nat :=
  ((db.articles.map (·.pmid)).dedup).length

/-- The `JOIN entity_fq ef ON eo.entity_text = ef.entity_text AND
eo.entity_id = ef.entity_id` of `update_tf_idf`, first match first (the
frequency pass writes one row per key into a fresh table). -/
def lookup_entity_fq (rows : List EntityFqRow) (eid : Nat) (text : String) :
    Option EntityFqRow :=
  rows.find? (fun r => r.entityId == eid && r.entityText == text)

/-- `update_tf_idf`: raises `ValueError` when the store holds no articles
(`none`); otherwise each occurrence joining an `entity_fq` row is updated
with `idf = ln(N / doc_fq)`, `inter_doc_fq = doc_fq` and
`tf_idf = tf * idf` (a NULL `tf` propagates to a NULL `tf_idf`). -/
noncomputable def update_tf_idf (db : DB) : Option DB :=
  let n := article_count db
  if n < 1 then none
  else some { db with occurrences := db.occurrences.map (fun o =>
    match lookup_entity_fq db.entityFq o.entityId o.entityText with
    | none => o
    | some ef =>
      let idfv : ℝ := Real.log ((n : ℝ) / (ef.docFq : ℝ))
      { o with idf := some idfv,
               interDocFq := some (ef.docFq : Int),
               tfIdf := o.tf.map (fun t => t * idfv) }) }

/-- The value the specification prescribes for a group's inverse document
frequency: the natural logarithm of the total document count over the
group's distinct-document count. -/
noncomputable def idf_of (db : DB) (o : Occ) : ℝ :=
  Real.log ((article_count db : ℝ) / (group_doc_fq db (occ_key o) : ℝ))

end Stats

/-! ## Co-occurrence summary: `db_easyner.py`, `sum_cooccurences`

Groups `entity_cooccurrences` by the two mention texts, counts each pair,
averages the TF-IDF of each member over all its occurrences and writes one
`coentity_summary` row per pair.  The arithmetic of the pass is plain field
arithmetic (counts, sums, division, products), embedded over `ℚ` to keep
the model executable; nothing proved depends on the choice of field. -/

namespace Summary

/-- A row of `entity_cooccurrences` as this pass reads and updates it. -/
structure CoocRow where
  id : Nat
  e1Text : String
  e2Text : String
  summaryId : Option Nat
deriving DecidableEq, Repr

/-- A row of `entity_occurrences` as this pass reads it. -/
structure OccRow where
  entityText : String
  entityId : Nat
  tfIdf : ℚ
deriving DecidableEq, Repr

/-- A row of `coentity_summary` (the JSON-dump columns `e1_tf_idf`,
`e2_tf_idf` hold the same value lists the averages are computed from and
are omitted). -/
structure SummaryRow where
  id : Nat
  e1Text : String
  e2Text : String
  fq : Nat
  weightedFq : ℚ
  avgE1TfIdf : ℚ
  avgE2TfIdf : ℚ
deriving DecidableEq, Repr

/-- The tables `sum_cooccurences` touches. -/
structure DB where
  cooccurrences : List CoocRow
  occurrences : List OccRow
  summary : List SummaryRow
deriving DecidableEq, Repr

/-- The `(e1_text, e2_text)` grouping key. -/
def pair_key (r : CoocRow) : String × String := (r.e1Text, r.e2Text)

/-- The `(e1_text, e2_text)` key of a summary row. -/
def summary_key (r : SummaryRow) : String × String := (r.e1Text, r.e2Text)

/-- `SELECT DISTINCT e1_text, e2_text FROM entity_cooccurrences WHERE
coentity_summary_id IS NULL`: the pairs not yet summarised. -/
def unique_pairs (db : DB) : List (String × String) :=
  ((db.cooccurrences.filter (fun r => r.summaryId == none)).map pair_key).dedup

/-- `count_cooccurrence_worker`: number of co-occurrence rows carrying the
two texts (ALL rows, not only the unsummarised ones). -/
def pair_count (rows : List CoocRow) (p : String × String) : Nat :=
  (rows.filter (fun r => decide (pair_key r = p))).length

/-- The `entity_id IN (SELECT entity_id FROM entity_occurrences WHERE
entity_text = ?)` filter of the tf-idf fetch (any occurrence of the text
trivially passes it; kept as written). -/
def ids_of_text (occs : List OccRow) (t : String) : List Nat :=
  (occs.filter (fun q => q.entityText == t)).map (fun q => q.entityId)

/-- The `tf_idf` values fetched for one mention text: over all occurrences
of that text. -/
def tf_idf_values (occs : List OccRow) (t : String) : List ℚ :=
  (occs.filter
    (fun o => o.entityText == t && (ids_of_text occs t).contains o.entityId)).map
    (fun o => o.tfIdf)

/-- `sum(values) / len(values)` (the source raises `ZeroDivisionError` on
an empty list; the theorems carry non-emptiness). -/
def avg_tf_idf (occs : List OccRow) (t : String) : ℚ :=
  (tf_idf_values occs t).sum / (tf_idf_values occs t).length

/-- One iteration of the per-pair loop of `sum_cooccurences`: count the
pair, average both sides, insert one summary row (`lastrowid` is the
successor of the largest id ever used) with
`weighted_fq = frequency * avg_e1 * avg_e2`, then stamp the pair's
co-occurrence rows with the new summary id. -/
def summary_insert (db : DB) (p : String × String) : DB :=
  let fq := pair_count db.cooccurrences p
  let a1 := avg_tf_idf db.occurrences p.1
  let a2 := avg_tf_idf db.occurrences p.2
  let newId := (db.summary.map (·.id)).foldr max 0 + 1
  { db with
    summary := db.summary ++ [⟨newId, p.1, p.2, fq, fq * a1 * a2, a1, a2⟩],
    cooccurrences := db.cooccurrences.map (fun r =>
      if pair_key r = p then { r with summaryId := some newId } else r) }

/-- The `ORDER BY fq DESC, e1_text ASC, e2_text ASC` rewrite of
`coentity_summary`. -/
def summary_order (a b : SummaryRow) : Bool :=
  b.fq < a.fq ||
    (a.fq == b.fq &&
      (a.e1Text < b.e1Text || (a.e1Text == b.e1Text && a.e2Text ≤ b.e2Text)))

/-- `sum_cooccurences`: one summary row per unsummarised distinct pair,
then the table is rewritten in sorted order. -/
def sum_cooccurences (db : DB) : DB :=
  let db' := (unique_pairs db).foldl summary_insert db
  { db' with summary := db'.summary.mergeSort summary_order }

end Summary

/-! ## Concrete stores and batches used by the witnesses and evaluations -/

/-- A store holding one `disease` mention and one `phenomenon` mention in
the same sentence, with the co-occurrence table empty. -/
def coocExample : Cooc.DB :=
  { entities := [(1, "disease"), (2, "phenomenon")],
    occurrences := [⟨1, "d1", 1, 5⟩, ⟨2, "p1", 2, 5⟩],
    cooccurrences := [] }

/-- Nonempty collections as `insert_data` receives them from
`process_chunk`. -/
def collectionsExample : ChunkedLoader.Collections :=
  { documents := [⟨7, "title", 0, 0, 0⟩],
    sentences := [⟨"a sentence", 0, 7, 2, 2, 9⟩],
    namedEntities := ChunkedLoader.fixed_named_entities,
    entityOccurrences := [⟨"x", 0, 1, 1, 0, 0, 0, 0, 0, 0⟩] }

/-- An empty threaded-loader store. -/
def emptyStore : CopyLoader.Store := ⟨[], [], [], []⟩

/-- A well-formed document: title present, one sentence with one disease
mention and its span. -/
def docExample : CopyLoader.DocumentJson :=
  { title := some "Title 1",
    sentences :=
      [⟨"A sentence.", 2, 2, 9, [("disease", ["d1"])],
        [("disease", [(2, 4)])]⟩] }

/-- A document missing its required `title` key. -/
def badDocExample : CopyLoader.DocumentJson :=
  { title := none,
    sentences :=
      [⟨"Another sentence.", 2, 2, 15, [("disease", ["d2"])],
        [("disease", [(0, 2)])]⟩] }

/-- An analytics store with one article, one sentence and one occurrence,
the statistics columns still NULL and the `entity_fq` table empty. -/
def statsDb3 : Stats.DB :=
  { articles := [⟨1, 10⟩],
    sentences := [⟨1, 1⟩],
    occurrences := [⟨1, "X", 1, 1, some 1, none, none, none, none, none⟩],
    entityFq := [] }

/-- An analytics store as the chunked loader leaves it: one article of word
count 10, entity `X` occurring twice (once in each of two sentences of the
article), `intra_doc_fq` seeded with 0 by ingestion. -/
def statsDb4 : Stats.DB :=
  { articles := [⟨1, 10⟩],
    sentences := [⟨1, 1⟩, ⟨2, 1⟩],
    occurrences :=
      [⟨1, "X", 1, 1, some 1, some 0, none, none, none, none⟩,
       ⟨2, "X", 1, 2, some 1, some 0, none, none, none, none⟩],
    entityFq := [] }

/-- A summary-stage store realising the specification's numeric scenario:
the pair (A, B) co-occurs three times, A's occurrences average a tf-idf of
2.0 and B's of 0.5. -/
def summaryDb5 : Summary.DB :=
  { cooccurrences :=
      [⟨1, "A", "B", none⟩, ⟨2, "A", "B", none⟩, ⟨3, "A", "B", none⟩],
    occurrences := [⟨"A", 1, 2⟩, ⟨"B", 2, 1/2⟩],
    summary := [] }

end EasyNER

namespace EasyNER

/-! ## Theorems -/

/-! ### Bulk-loader lemmas (`db_convert_json_to_sqlite_copy.py`) -/

namespace CopyLoader

theorem get_or_insert_named_entity_extends (nes : List (Nat × String))
    (name : String) : nes <+: (get_or_insert_named_entity nes name).1 := by
  unfold get_or_insert_named_entity
  cases h : nes.find? (fun e => e.2 == name) with
  | some e => exact List.prefix_rfl
  | none => exact ⟨_, rfl⟩

theorem get_or_insert_named_entity_mem (nes : List (Nat × String))
    (name : String) :
    name ∈ ((get_or_insert_named_entity nes name).1).map (·.2) := by
  unfold get_or_insert_named_entity
  cases h : nes.find? (fun e => e.2 == name) with
  | some e =>
    have hp := List.find?_some h
    have he : e ∈ nes := List.mem_of_find?_eq_some h
    simp only [beq_iff_eq] at hp
    exact List.mem_map.mpr ⟨e, he, hp⟩
  | none => simp

theorem buffer_append_all_documents :
    ∀ (os : List OccurrenceRow) (st : Store) (buf : List OccurrenceRow),
      (buffer_append_all st buf os).1.documents = st.documents
  | [], _, _ => rfl
  | o :: os, st, buf => by
    simp only [buffer_append_all]
    rw [buffer_append_all_documents os]
    simp only [buffer_append]
    split <;> rfl

theorem buffer_append_all_sentences :
    ∀ (os : List OccurrenceRow) (st : Store) (buf : List OccurrenceRow),
      (buffer_append_all st buf os).1.sentences = st.sentences
  | [], _, _ => rfl
  | o :: os, st, buf => by
    simp only [buffer_append_all]
    rw [buffer_append_all_sentences os]
    simp only [buffer_append]
    split <;> rfl

theorem buffer_append_all_ne :
    ∀ (os : List OccurrenceRow) (st : Store) (buf : List OccurrenceRow),
      (buffer_append_all st buf os).1.namedEntities = st.namedEntities
  | [], _, _ => rfl
  | o :: os, st, buf => by
    simp only [buffer_append_all]
    rw [buffer_append_all_ne os]
    simp only [buffer_append]
    split <;> rfl

theorem buffer_append_all_occ_extends :
    ∀ (os : List OccurrenceRow) (st : Store) (buf : List OccurrenceRow),
      st.entityOccurrences <+: (buffer_append_all st buf os).1.entityOccurrences
  | [], _, _ => List.prefix_rfl
  | o :: os, st, buf => by
    simp only [buffer_append_all]
    refine List.IsPrefix.trans ?_ (buffer_append_all_occ_extends os _ _)
    simp only [buffer_append]
    split
    · exact List.prefix_append _ _
    · exact List.prefix_rfl

theorem buffer_append_all_occ_length :
    ∀ (os : List OccurrenceRow) (st : Store) (buf : List OccurrenceRow),
      (buffer_append_all st buf os).1.entityOccurrences.length
          + (buffer_append_all st buf os).2.length
        = st.entityOccurrences.length + buf.length + os.length
  | [], _, _ => by simp [buffer_append_all]
  | o :: os, st, buf => by
    simp only [buffer_append_all]
    rw [buffer_append_all_occ_length os]
    simp only [buffer_append]
    split
    · simp [List.length_append]
      omega
    · simp [List.length_append]
      omega

theorem insert_entity_types_documents (sentId : Nat) (s : SentenceJson) :
    ∀ (ps : List (String × List String)) (st : Store)
      (buf : List OccurrenceRow),
      (insert_entity_types sentId s st buf ps).1.documents = st.documents
  | [], _, _ => rfl
  | p :: ps, st, buf => by
    simp only [insert_entity_types]
    split
    · rfl
    · rw [insert_entity_types_documents sentId s ps]
      rw [buffer_append_all_documents]

theorem insert_entity_types_sentences (sentId : Nat) (s : SentenceJson) :
    ∀ (ps : List (String × List String)) (st : Store)
      (buf : List OccurrenceRow),
      (insert_entity_types sentId s st buf ps).1.sentences = st.sentences
  | [], _, _ => rfl
  | p :: ps, st, buf => by
    simp only [insert_entity_types]
    split
    · rfl
    · rw [insert_entity_types_sentences sentId s ps]
      rw [buffer_append_all_sentences]

theorem insert_entity_types_ne_extends (sentId : Nat) (s : SentenceJson) :
    ∀ (ps : List (String × List String)) (st : Store)
      (buf : List OccurrenceRow),
      st.namedEntities <+: (insert_entity_types sentId s st buf ps).1.namedEntities
  | [], _, _ => List.prefix_rfl
  | p :: ps, st, buf => by
    simp only [insert_entity_types]
    split
    · exact get_or_insert_named_entity_extends st.namedEntities p.1
    · refine List.IsPrefix.trans ?_ (insert_entity_types_ne_extends sentId s ps _ _)
      rw [buffer_append_all_ne]
      exact get_or_insert_named_entity_extends st.namedEntities p.1

theorem insert_entity_types_occ_extends (sentId : Nat) (s : SentenceJson) :
    ∀ (ps : List (String × List String)) (st : Store)
      (buf : List OccurrenceRow),
      st.entityOccurrences <+:
        (insert_entity_types sentId s st buf ps).1.entityOccurrences
  | [], _, _ => List.prefix_rfl
  | p :: ps, st, buf => by
    simp only [insert_entity_types]
    split
    · exact List.prefix_rfl
    · refine List.IsPrefix.trans ?_
        (insert_entity_types_occ_extends sentId s ps _ _)
      exact buffer_append_all_occ_extends _
        { st with
          namedEntities := (get_or_insert_named_entity st.namedEntities p.1).1 }
        buf

theorem insert_entity_types_ok (sentId : Nat) (s : SentenceJson) :
    ∀ (ps : List (String × List String)) (st : Store)
      (buf : List OccurrenceRow),
      (∀ p ∈ ps, (s.entitySpans.lookup p.1).isSome) →
      (insert_entity_types sentId s st buf ps).2.2 = true
  | [], _, _, _ => rfl
  | p :: ps, st, buf, hp => by
    obtain ⟨spans, hsp⟩ :=
      Option.isSome_iff_exists.mp (hp p (List.mem_cons_self _ _))
    simp only [insert_entity_types, hsp]
    exact insert_entity_types_ok sentId s ps _ _
      (fun q hq => hp q (List.mem_cons_of_mem _ hq))

theorem insert_entity_types_occ_length (sentId : Nat) (s : SentenceJson) :
    ∀ (ps : List (String × List String)) (st : Store)
      (buf : List OccurrenceRow),
      (∀ p ∈ ps, (s.entitySpans.lookup p.1).isSome) →
      (insert_entity_types sentId s st buf ps).1.entityOccurrences.length
          + (insert_entity_types sentId s st buf ps).2.1.length
        = st.entityOccurrences.length + buf.length
          + (ps.map (fun p =>
              min p.2.length ((s.entitySpans.lookup p.1).getD []).length)).sum
  | [], st, buf, _ => by simp [insert_entity_types]
  | p :: ps, st, buf, hp => by
    obtain ⟨spans, hsp⟩ :=
      Option.isSome_iff_exists.mp (hp p (List.mem_cons_self _ _))
    simp only [insert_entity_types, hsp]
    rw [insert_entity_types_occ_length sentId s ps _ _
      (fun q hq => hp q (List.mem_cons_of_mem _ hq))]
    rw [buffer_append_all_occ_length]
    simp [hsp, List.length_zip]
    omega

theorem insert_entity_types_types_mem (sentId : Nat) (s : SentenceJson) :
    ∀ (ps : List (String × List String)) (st : Store)
      (buf : List OccurrenceRow),
      (∀ p ∈ ps, (s.entitySpans.lookup p.1).isSome) →
      ∀ p ∈ ps,
        p.1 ∈ ((insert_entity_types sentId s st buf ps).1.namedEntities).map (·.2)
  | [], _, _, _ => by simp
  | q :: ps, st, buf, hp => by
    intro p hpm
    obtain ⟨spans, hsp⟩ :=
      Option.isSome_iff_exists.mp (hp q (List.mem_cons_self _ _))
    simp only [insert_entity_types, hsp]
    rcases List.mem_cons.mp hpm with h | h
    · subst h
      refine List.map_subset _
        (insert_entity_types_ne_extends sentId s ps _ _).subset ?_
      rw [buffer_append_all_ne]
      exact get_or_insert_named_entity_mem st.namedEntities p.1
    · exact insert_entity_types_types_mem sentId s ps _ _
        (fun r hr => hp r (List.mem_cons_of_mem _ hr)) p h

theorem sentence_rows_from_length (docId : Nat) :
    ∀ (ss : List SentenceJson) (nextRowid idx : Nat),
      (sentence_rows_from docId nextRowid idx ss).length = ss.length
  | [], _, _ => rfl
  | s :: ss, nr, idx => by
    simp only [sentence_rows_from, List.length_cons,
      sentence_rows_from_length docId ss]

theorem sentence_rows_from_exists (docId : Nat) :
    ∀ (ss : List SentenceJson) (nextRowid idx j : Nat), j < ss.length →
      ∃ r, r ∈ sentence_rows_from docId nextRowid idx ss
        ∧ r.documentId = docId ∧ r.sentenceIndex = idx + j
  | [], _, _, j, h => absurd h (by simp)
  | s :: ss, nr, idx, 0, _ =>
    ⟨_, List.mem_cons_self _ _, rfl, rfl⟩
  | s :: ss, nr, idx, j + 1, h => by
    obtain ⟨r, hr, hd, hi⟩ :=
      sentence_rows_from_exists docId ss (nr + 1) (idx + 1) j (by simpa using h)
    exact ⟨r, List.mem_cons_of_mem _ hr, hd, by omega⟩

theorem lookup_insert_sentences_isSome (rows : List SentenceRow) (docId : Nat)
    (ss : List SentenceJson) (j : Nat) (h : j < ss.length) :
    (lookup_sentence_id (insert_sentences rows docId ss) docId j).isSome := by
  unfold lookup_sentence_id insert_sentences
  obtain ⟨r, hr, hd, hi⟩ :=
    sentence_rows_from_exists docId ss (rows.length + 1) 0 j h
  have hs : ((rows ++ sentence_rows_from docId (rows.length + 1) 0 ss).find?
      (fun r => r.documentId == docId && r.sentenceIndex == j)).isSome :=
    List.find?_isSome.mpr ⟨r, List.mem_append_right _ hr, by simp [hd, hi]⟩
  obtain ⟨v, hv⟩ := Option.isSome_iff_exists.mp hs
  simp [hv]

theorem insert_entities_from_documents (docId : Nat) :
    ∀ (ss : List SentenceJson) (st : Store) (buf : List OccurrenceRow)
      (idx : Nat),
      (insert_entities_from st buf docId idx ss).1.documents = st.documents
  | [], _, _, _ => rfl
  | s :: ss, st, buf, idx => by
    simp only [insert_entities_from]
    split
    · exact insert_entities_from_documents docId ss st buf (idx + 1)
    · split
      · exact insert_entities_from_documents docId ss st buf (idx + 1)
      · split
        · rw [insert_entities_from_documents docId ss]
          exact insert_entity_types_documents _ _ _ _ _
        · exact insert_entity_types_documents _ _ _ _ _

theorem insert_entities_from_sentences (docId : Nat) :
    ∀ (ss : List SentenceJson) (st : Store) (buf : List OccurrenceRow)
      (idx : Nat),
      (insert_entities_from st buf docId idx ss).1.sentences = st.sentences
  | [], _, _, _ => rfl
  | s :: ss, st, buf, idx => by
    simp only [insert_entities_from]
    split
    · exact insert_entities_from_sentences docId ss st buf (idx + 1)
    · split
      · exact insert_entities_from_sentences docId ss st buf (idx + 1)
      · split
        · rw [insert_entities_from_sentences docId ss]
          exact insert_entity_types_sentences _ _ _ _ _
        · exact insert_entity_types_sentences _ _ _ _ _

theorem insert_entities_from_ne_extends (docId : Nat) :
    ∀ (ss : List SentenceJson) (st : Store) (buf : List OccurrenceRow)
      (idx : Nat),
      st.namedEntities
        <+: (insert_entities_from st buf docId idx ss).1.namedEntities
  | [], _, _, _ => List.prefix_rfl
  | s :: ss, st, buf, idx => by
    simp only [insert_entities_from]
    split
    · exact insert_entities_from_ne_extends docId ss st buf (idx + 1)
    · split
      · exact insert_entities_from_ne_extends docId ss st buf (idx + 1)
      · split
        · refine List.IsPrefix.trans ?_
            (insert_entities_from_ne_extends docId ss _ _ _)
          exact insert_entity_types_ne_extends _ _ _ _ _
        · exact insert_entity_types_ne_extends _ _ _ _ _

theorem insert_entities_from_occ_extends (docId : Nat) :
    ∀ (ss : List SentenceJson) (st : Store) (buf : List OccurrenceRow)
      (idx : Nat),
      st.entityOccurrences
        <+: (insert_entities_from st buf docId idx ss).1.entityOccurrences
  | [], _, _, _ => List.prefix_rfl
  | s :: ss, st, buf, idx => by
    simp only [insert_entities_from]
    split
    · exact insert_entities_from_occ_extends docId ss st buf (idx + 1)
    · split
      · exact insert_entities_from_occ_extends docId ss st buf (idx + 1)
      · split
        · refine List.IsPrefix.trans ?_
            (insert_entities_from_occ_extends docId ss _ _ _)
          exact insert_entity_types_occ_extends _ _ _ _ _
        · exact insert_entity_types_occ_extends _ _ _ _ _

theorem insert_entities_from_ok (docId : Nat) :
    ∀ (ss : List SentenceJson) (st : Store) (buf : List OccurrenceRow)
      (idx : Nat),
      (∀ s ∈ ss, ∀ p ∈ s.entities, (s.entitySpans.lookup p.1).isSome) →
      (insert_entities_from st buf docId idx ss).2.2 = true
  | [], _, _, _, _ => rfl
  | s :: ss, st, buf, idx, hsp => by
    have htail : ∀ t ∈ ss, ∀ q ∈ t.entities,
        (t.entitySpans.lookup q.1).isSome :=
      fun t ht => hsp t (List.mem_cons_of_mem _ ht)
    simp only [insert_entities_from]
    split
    · exact insert_entities_from_ok docId ss st buf (idx + 1) htail
    · split
      · exact insert_entities_from_ok docId ss st buf (idx + 1) htail
      · split
        · exact insert_entities_from_ok docId ss _ _ (idx + 1) htail
        · next hfail =>
          exact absurd (insert_entity_types_ok _ s s.entities st buf
            (hsp s (List.mem_cons_self _ _))) hfail

theorem insert_entities_from_occ_length (docId : Nat) :
    ∀ (ss : List SentenceJson) (st : Store) (buf : List OccurrenceRow)
      (idx : Nat),
      (∀ j, j < ss.length →
        (lookup_sentence_id st.sentences docId (idx + j)).isSome) →
      (∀ s ∈ ss, ∀ p ∈ s.entities, (s.entitySpans.lookup p.1).isSome) →
      (insert_entities_from st buf docId idx ss).1.entityOccurrences.length
          + (insert_entities_from st buf docId idx ss).2.1.length
        = st.entityOccurrences.length + buf.length
          + (ss.map sentence_occ_count).sum
  | [], st, buf, idx, _, _ => by simp [insert_entities_from]
  | s :: ss, st, buf, idx, h, hsp => by
    have htail : ∀ t ∈ ss, ∀ q ∈ t.entities,
        (t.entitySpans.lookup q.1).isSome :=
      fun t ht => hsp t (List.mem_cons_of_mem _ ht)
    simp only [insert_entities_from]
    by_cases he : s.entities.isEmpty
    · rw [if_pos he]
      rw [insert_entities_from_occ_length docId ss st buf (idx + 1)
        (fun j hj => by
          have h2 := h (j + 1) (by simpa using hj)
          have heq : idx + (j + 1) = idx + 1 + j := by omega
          rwa [heq] at h2) htail]
      simp [sentence_occ_count, he]
    · rw [if_neg he]
      have hl : (lookup_sentence_id st.sentences docId idx).isSome := by
        have := h 0 (by simp)
        simpa using this
      obtain ⟨sid, hsid⟩ := Option.isSome_iff_exists.mp hl
      simp only [hsid]
      have hok := insert_entity_types_ok sid s s.entities st buf
        (hsp s (List.mem_cons_self _ _))
      rw [if_pos hok]
      rw [insert_entities_from_occ_length docId ss _ _ (idx + 1)
        (fun j hj => by
          have h2 := h (j + 1) (by simpa using hj)
          have heq : idx + (j + 1) = idx + 1 + j := by omega
          rw [insert_entity_types_sentences]
          rwa [heq] at h2) htail]
      rw [insert_entity_types_occ_length sid s s.entities st buf
        (hsp s (List.mem_cons_self _ _))]
      simp [sentence_occ_count, he]
      omega

theorem insert_entities_from_types_mem (docId : Nat) :
    ∀ (ss : List SentenceJson) (st : Store) (buf : List OccurrenceRow)
      (idx : Nat),
      (∀ j, j < ss.length →
        (lookup_sentence_id st.sentences docId (idx + j)).isSome) →
      (∀ s ∈ ss, ∀ p ∈ s.entities, (s.entitySpans.lookup p.1).isSome) →
      ∀ s ∈ ss, ¬s.entities.isEmpty → ∀ p ∈ s.entities,
        p.1 ∈
          ((insert_entities_from st buf docId idx ss).1.namedEntities).map (·.2)
  | [], _, _, _, _, _ => by simp
  | s :: ss, st, buf, idx, h, hsp => by
    intro s' hs' hne p hp
    have htail : ∀ t ∈ ss, ∀ q ∈ t.entities,
        (t.entitySpans.lookup q.1).isSome :=
      fun t ht => hsp t (List.mem_cons_of_mem _ ht)
    simp only [insert_entities_from]
    rcases List.mem_cons.mp hs' with hh | hh
    · subst hh
      rw [if_neg hne]
      have hl : (lookup_sentence_id st.sentences docId idx).isSome := by
        have := h 0 (by simp)
        simpa using this
      obtain ⟨sid, hsid⟩ := Option.isSome_iff_exists.mp hl
      simp only [hsid]
      have hok := insert_entity_types_ok sid s' s'.entities st buf
        (hsp s' (List.mem_cons_self _ _))
      rw [if_pos hok]
      refine List.map_subset _
        (insert_entities_from_ne_extends docId ss _ _ _).subset ?_
      exact insert_entity_types_types_mem sid s' s'.entities st buf
        (hsp s' (List.mem_cons_self _ _)) p hp
    · split
      · refine insert_entities_from_types_mem docId ss st buf (idx + 1)
          (fun j hj => ?_) htail s' hh hne p hp
        have h2 := h (j + 1) (by simpa using hj)
        have heq : idx + (j + 1) = idx + 1 + j := by omega
        rwa [heq] at h2
      · split
        · refine insert_entities_from_types_mem docId ss st buf (idx + 1)
            (fun j hj => ?_) htail s' hh hne p hp
          have h2 := h (j + 1) (by simpa using hj)
          have heq : idx + (j + 1) = idx + 1 + j := by omega
          rwa [heq] at h2
        · split
          · refine insert_entities_from_types_mem docId ss _ _ (idx + 1)
              (fun j hj => ?_) htail s' hh hne p hp
            have h2 := h (j + 1) (by simpa using hj)
            have heq : idx + (j + 1) = idx + 1 + j := by omega
            rw [insert_entity_types_sentences]
            rwa [heq] at h2
          · next hfail =>
            exact absurd (insert_entity_types_ok _ s s.entities st buf
              (hsp s (List.mem_cons_self _ _))) hfail

end CopyLoader

end EasyNER

namespace EasyNER

/-- C2: within one run each co-occurring pair of the two requested types is
recorded once, but re-running the recording step records it again: the
`INSERT OR IGNORE` has no UNIQUE constraint to act on, so the pair
`("d1", "p1")` is present twice after two runs, where the claim requires
exactly one row. -/
theorem record_cooc_rerun_duplicates :
    Cooc.count_pair
        ((Cooc.record_entity_cooccurrences coocExample
          "disease" "phenomenon").cooccurrences) "d1" "p1" = 1
    ∧ Cooc.count_pair
        ((Cooc.record_entity_cooccurrences
          (Cooc.record_entity_cooccurrences coocExample "disease" "phenomenon")
          "disease" "phenomenon").cooccurrences) "d1" "p1" = 2 := by
  decide

/-- C6: in the chunked pipeline a file whose processing raises (here at its
second chunk) is still recorded in `source_files` by the `finally` block,
so the scan of the next run does NOT select it again — and the chunks
committed before the failure remain in the store. -/
theorem failed_file_recorded_and_not_retried :
    (ChunkedLoader.file_step ⟨[], []⟩ "batch1.json" 3 (some 1)).sourceFiles
        = ["batch1.json"]
    ∧ ChunkedLoader.select_new_files ["batch2.json", "batch1.json"]
        (ChunkedLoader.file_step ⟨[], []⟩ "batch1.json" 3 (some 1)).sourceFiles
        = ["batch2.json"]
    ∧ (ChunkedLoader.file_step ⟨[], []⟩ "batch1.json" 3 (some 1)).chunks
        = [("batch1.json", 0)] := by
  decide

/-- C10: refutation of the claim as stated: when the very first
`batch_insert` (documents) raises, `insert_data` propagates the exception
with the sentence collection still holding its row — its length is not
zero. -/
theorem insert_data_exception_leaves_sentences :
    ((ChunkedLoader.insert_data_collections collectionsExample
      (some 0)).1.sentences).length ≠ 0 := by
  decide

/-- C10 (amended): on a normal return all four collections are empty; when
the i-th `batch_insert` raises, the collections already processed —
including the raising one, whose list `batch_insert` clears in its own
`finally` — are empty, but the later collections keep their contents (the
entity-type dictionary is cleared only after its rows were inserted); and
`process_chunk` always empties the chunk mapping it was given. -/
theorem insert_data_clears_processed_collections
    (c : ChunkedLoader.Collections) :
    (ChunkedLoader.insert_data_collections c none).1 = ⟨[], [], [], []⟩
    ∧ (ChunkedLoader.insert_data_collections c (some 0)).1
        = ⟨[], c.sentences, c.namedEntities, c.entityOccurrences⟩
    ∧ (ChunkedLoader.insert_data_collections c (some 1)).1
        = ⟨[], [], c.namedEntities, c.entityOccurrences⟩
    ∧ (ChunkedLoader.insert_data_collections c (some 2)).1
        = ⟨[], [], c.namedEntities, c.entityOccurrences⟩
    ∧ (ChunkedLoader.insert_data_collections c (some 3)).1 = ⟨[], [], [], []⟩
    ∧ ∀ chunk : List (Nat × ChunkedLoader.ChunkDoc),
        (ChunkedLoader.process_chunk chunk).2 = [] := by
  refine ⟨rfl, ?_, ?_, ?_, ?_, fun _ => rfl⟩ <;>
    simp [ChunkedLoader.insert_data_collections]

namespace CopyLoader

theorem process_document_documents_extends (st : Store) (docId : Nat)
    (doc : DocumentJson) :
    st.documents <+: (process_document st docId doc).1.documents := by
  unfold process_document
  cases doc.title with
  | none => exact List.prefix_rfl
  | some t =>
    have hbase : st.documents <+:
        insert_or_ignore_document st.documents docId t := by
      unfold insert_or_ignore_document
      split
      · exact List.prefix_rfl
      · exact ⟨_, rfl⟩
    simp only
    split
    all_goals
      show st.documents <+: (insert_entities_from
        ⟨insert_or_ignore_document st.documents docId t,
         insert_sentences st.sentences docId doc.sentences,
         st.namedEntities, st.entityOccurrences⟩ [] docId 0
        doc.sentences).1.documents
      rw [insert_entities_from_documents]
      exact hbase

theorem process_document_sentences_extends (st : Store) (docId : Nat)
    (doc : DocumentJson) :
    st.sentences <+: (process_document st docId doc).1.sentences := by
  unfold process_document
  cases doc.title with
  | none => exact List.prefix_rfl
  | some t =>
    simp only
    split
    all_goals
      show st.sentences <+: (insert_entities_from
        ⟨insert_or_ignore_document st.documents docId t,
         insert_sentences st.sentences docId doc.sentences,
         st.namedEntities, st.entityOccurrences⟩ [] docId 0
        doc.sentences).1.sentences
      rw [insert_entities_from_sentences]
      exact ⟨_, rfl⟩

theorem process_document_ne_extends (st : Store) (docId : Nat)
    (doc : DocumentJson) :
    st.namedEntities <+: (process_document st docId doc).1.namedEntities := by
  unfold process_document
  cases doc.title with
  | none => exact List.prefix_rfl
  | some t =>
    simp only
    split
    all_goals
      exact insert_entities_from_ne_extends docId doc.sentences
        ⟨insert_or_ignore_document st.documents docId t,
         insert_sentences st.sentences docId doc.sentences,
         st.namedEntities, st.entityOccurrences⟩ [] 0

theorem process_document_occ_extends (st : Store) (docId : Nat)
    (doc : DocumentJson) :
    st.entityOccurrences <+:
      (process_document st docId doc).1.entityOccurrences := by
  unfold process_document
  cases doc.title with
  | none => exact List.prefix_rfl
  | some t =>
    simp only
    split
    · exact (insert_entities_from_occ_extends docId doc.sentences
        ⟨insert_or_ignore_document st.documents docId t,
         insert_sentences st.sentences docId doc.sentences,
         st.namedEntities, st.entityOccurrences⟩ [] 0).trans
        (List.prefix_append _ _)
    · exact insert_entities_from_occ_extends docId doc.sentences
        ⟨insert_or_ignore_document st.documents docId t,
         insert_sentences st.sentences docId doc.sentences,
         st.namedEntities, st.entityOccurrences⟩ [] 0

theorem process_document_sentences_length (st : Store) (docId : Nat)
    (doc : DocumentJson) :
    (process_document st docId doc).1.sentences.length
      = st.sentences.length
        + (if doc.title.isSome then doc.sentences.length else 0) := by
  unfold process_document
  cases doc.title with
  | none => simp
  | some t =>
    simp only [Option.isSome_some, if_pos]
    split
    all_goals
      show (insert_entities_from
        ⟨insert_or_ignore_document st.documents docId t,
         insert_sentences st.sentences docId doc.sentences,
         st.namedEntities, st.entityOccurrences⟩ [] docId 0
        doc.sentences).1.sentences.length = _
      rw [insert_entities_from_sentences]
      simp [insert_sentences, sentence_rows_from_length]

theorem process_document_occ_length (st : Store) (docId : Nat)
    (doc : DocumentJson)
    (hsp : ∀ s ∈ doc.sentences, ∀ p ∈ s.entities,
      (s.entitySpans.lookup p.1).isSome) :
    (process_document st docId doc).1.entityOccurrences.length
      = st.entityOccurrences.length
        + (if doc.title.isSome then
            (doc.sentences.map sentence_occ_count).sum else 0) := by
  unfold process_document
  cases doc.title with
  | none => simp
  | some t =>
    simp only [Option.isSome_some, if_pos]
    split
    · show ((insert_entities_from
        ⟨insert_or_ignore_document st.documents docId t,
         insert_sentences st.sentences docId doc.sentences,
         st.namedEntities, st.entityOccurrences⟩ [] docId 0
        doc.sentences).1.entityOccurrences
          ++ (insert_entities_from
        ⟨insert_or_ignore_document st.documents docId t,
         insert_sentences st.sentences docId doc.sentences,
         st.namedEntities, st.entityOccurrences⟩ [] docId 0
        doc.sentences).2.1).length = _
      rw [List.length_append]
      rw [insert_entities_from_occ_length docId doc.sentences _ _ 0
        (fun j hj => by
          have h0 : (0 : Nat) + j = j := Nat.zero_add j
          rw [h0]
          exact lookup_insert_sentences_isSome st.sentences docId
            doc.sentences j hj) hsp]
      simp
    · next hfail =>
      exact absurd (insert_entities_from_ok docId doc.sentences _ _ 0 hsp)
        hfail

theorem process_document_doc_mem (st : Store) (docId : Nat)
    (doc : DocumentJson) (h : doc.title.isSome) :
    docId ∈ ((process_document st docId doc).1.documents).map (·.1) := by
  unfold process_document
  obtain ⟨t, ht⟩ := Option.isSome_iff_exists.mp h
  rw [ht]
  have hbase : docId ∈
      (insert_or_ignore_document st.documents docId t).map (·.1) := by
    unfold insert_or_ignore_document
    split
    · next hany =>
      obtain ⟨d, hd, hbeq⟩ := List.any_eq_true.mp hany
      exact List.mem_map.mpr ⟨d, hd, by simpa using hbeq⟩
    · exact List.mem_map.mpr
        ⟨(docId, t), List.mem_append_right _ (by simp), rfl⟩
  simp only
  split
  all_goals
    show docId ∈ ((insert_entities_from
      ⟨insert_or_ignore_document st.documents docId t,
       insert_sentences st.sentences docId doc.sentences,
       st.namedEntities, st.entityOccurrences⟩ [] docId 0
      doc.sentences).1.documents).map (·.1)
    rw [insert_entities_from_documents]
    exact hbase

theorem process_document_types_mem (st : Store) (docId : Nat)
    (doc : DocumentJson) (h : doc.title.isSome)
    (hsp : ∀ s ∈ doc.sentences, ∀ p ∈ s.entities,
      (s.entitySpans.lookup p.1).isSome) :
    ∀ s ∈ doc.sentences, ¬s.entities.isEmpty → ∀ p ∈ s.entities,
      p.1 ∈ ((process_document st docId doc).1.namedEntities).map (·.2) := by
  unfold process_document
  obtain ⟨t, ht⟩ := Option.isSome_iff_exists.mp h
  rw [ht]
  intro s hs hne p hp
  simp only
  split
  all_goals
    show p.1 ∈ ((insert_entities_from
      ⟨insert_or_ignore_document st.documents docId t,
       insert_sentences st.sentences docId doc.sentences,
       st.namedEntities, st.entityOccurrences⟩ [] docId 0
      doc.sentences).1.namedEntities).map (·.2)
    exact insert_entities_from_types_mem docId doc.sentences _ _ 0
      (fun j hj => by
        have h0 : (0 : Nat) + j = j := Nat.zero_add j
        rw [h0]
        exact lookup_insert_sentences_isSome st.sentences docId
          doc.sentences j hj) hsp s hs hne p hp

theorem batch_sentence_count_cons (d : Nat × DocumentJson) (ds : FileData) :
    batch_sentence_count (d :: ds)
      = (if d.2.title.isSome then d.2.sentences.length else 0)
        + batch_sentence_count ds := by
  unfold batch_sentence_count valid_docs
  rw [List.filter_cons]
  split
  · next hc => simp [hc]
  · next hc => simp at hc; simp [hc]

theorem batch_occ_count_cons (d : Nat × DocumentJson) (ds : FileData) :
    batch_occ_count (d :: ds)
      = (if d.2.title.isSome then
          (d.2.sentences.map sentence_occ_count).sum else 0)
        + batch_occ_count ds := by
  unfold batch_occ_count valid_docs
  rw [List.filter_cons]
  split
  · next hc => simp [hc]
  · next hc => simp at hc; simp [hc]

theorem run_insert_documents_extends (st : Store) :
    ∀ data : FileData, st.documents <+: (run_insert st data).1.documents := by
  intro data
  induction data generalizing st with
  | nil => exact List.prefix_rfl
  | cons d ds ih =>
    simp only [run_insert]
    exact (process_document_documents_extends st d.1 d.2).trans (ih _)

theorem run_insert_sentences_extends (st : Store) :
    ∀ data : FileData, st.sentences <+: (run_insert st data).1.sentences := by
  intro data
  induction data generalizing st with
  | nil => exact List.prefix_rfl
  | cons d ds ih =>
    simp only [run_insert]
    exact (process_document_sentences_extends st d.1 d.2).trans (ih _)

theorem run_insert_ne_extends (st : Store) :
    ∀ data : FileData,
      st.namedEntities <+: (run_insert st data).1.namedEntities := by
  intro data
  induction data generalizing st with
  | nil => exact List.prefix_rfl
  | cons d ds ih =>
    simp only [run_insert]
    exact (process_document_ne_extends st d.1 d.2).trans (ih _)

theorem run_insert_occ_extends (st : Store) :
    ∀ data : FileData,
      st.entityOccurrences <+: (run_insert st data).1.entityOccurrences := by
  intro data
  induction data generalizing st with
  | nil => exact List.prefix_rfl
  | cons d ds ih =>
    simp only [run_insert]
    exact (process_document_occ_extends st d.1 d.2).trans (ih _)

theorem run_insert_sentences_length (st : Store) :
    ∀ data : FileData,
      (run_insert st data).1.sentences.length
        = st.sentences.length + batch_sentence_count data := by
  intro data
  induction data generalizing st with
  | nil => simp [run_insert, batch_sentence_count, valid_docs]
  | cons d ds ih =>
    simp only [run_insert]
    rw [ih, batch_sentence_count_cons, process_document_sentences_length]
    omega

theorem run_insert_occ_length (st : Store) :
    ∀ data : FileData, span_complete data →
      (run_insert st data).1.entityOccurrences.length
        = st.entityOccurrences.length + batch_occ_count data := by
  intro data
  induction data generalizing st with
  | nil => intro _; simp [run_insert, batch_occ_count, valid_docs]
  | cons d ds ih =>
    intro hspan
    have hd : ∀ s ∈ d.2.sentences, ∀ p ∈ s.entities,
        (s.entitySpans.lookup p.1).isSome :=
      hspan d (List.mem_cons_self _ _)
    have hds : span_complete ds :=
      fun e he => hspan e (List.mem_cons_of_mem _ he)
    simp only [run_insert]
    rw [ih _ hds, batch_occ_count_cons,
      process_document_occ_length st d.1 d.2 hd]
    omega

theorem run_insert_doc_mem (st : Store) :
    ∀ data : FileData, ∀ d ∈ valid_docs data,
      d.1 ∈ ((run_insert st data).1.documents).map (·.1) := by
  intro data
  induction data generalizing st with
  | nil => simp [valid_docs]
  | cons e ds ih =>
    intro d hd
    unfold valid_docs at hd
    rw [List.filter_cons] at hd
    simp only [run_insert]
    split at hd
    · next hvalid =>
      rcases List.mem_cons.mp hd with hh | hh
      · subst hh
        refine List.map_subset _
          (run_insert_documents_extends _ ds).subset ?_
        exact process_document_doc_mem st d.1 d.2 (by simpa using hvalid)
      · exact ih _ d hh
    · exact ih _ d hd

theorem batch_entity_types_cons (d : Nat × DocumentJson) (ds : FileData) :
    batch_entity_types (d :: ds)
      = (if d.2.title.isSome then
          d.2.sentences.flatMap
            (fun s => if s.entities.isEmpty then [] else s.entities.map (·.1))
          else [])
        ++ batch_entity_types ds := by
  unfold batch_entity_types valid_docs
  rw [List.filter_cons]
  split
  · next hc => simp [hc]
  · next hc => simp at hc; simp [hc]

theorem run_insert_types_mem (st : Store) :
    ∀ data : FileData, span_complete data →
      ∀ t ∈ batch_entity_types data,
        t ∈ ((run_insert st data).1.namedEntities).map (·.2) := by
  intro data
  induction data generalizing st with
  | nil => simp [batch_entity_types, valid_docs]
  | cons d ds ih =>
    intro hspan t ht
    have hd : ∀ s ∈ d.2.sentences, ∀ p ∈ s.entities,
        (s.entitySpans.lookup p.1).isSome :=
      hspan d (List.mem_cons_self _ _)
    have hds : span_complete ds :=
      fun e he => hspan e (List.mem_cons_of_mem _ he)
    rw [batch_entity_types_cons] at ht
    simp only [run_insert]
    rcases List.mem_append.mp ht with hh | hh
    · split at hh
      · next hvalid =>
        obtain ⟨s, hs, hts⟩ := List.mem_flatMap.mp hh
        by_cases he : s.entities.isEmpty
        · rw [if_pos he] at hts
          exact absurd hts (by simp)
        · rw [if_neg he] at hts
          obtain ⟨p, hp, hpt⟩ := List.mem_map.mp hts
          refine List.map_subset _ (run_insert_ne_extends _ ds).subset ?_
          subst hpt
          exact process_document_types_mem st d.1 d.2 hvalid hd s hs he p hp
      · exact absurd hh (by simp)
    · exact ih _ hds t hh

theorem ledger_add_mem_self (l : List String) (f : String) :
    f ∈ ledger_add l f := by
  unfold ledger_add
  split
  · next h => exact h
  · exact List.mem_append_right _ (by simp)

theorem ledger_add_mem_mono (l : List String) (f x : String) (h : x ∈ l) :
    x ∈ ledger_add l f := by
  unfold ledger_add
  split
  · exact h
  · exact List.mem_append_left _ h

theorem run_insert_skip_doc (docId : Nat) (doc : DocumentJson)
    (h : doc.title = none) :
    ∀ (pre post : FileData) (st : Store),
      run_insert st (pre ++ (docId, doc) :: post) = run_insert st (pre ++ post)
  | [], post, st => by
    simp only [List.nil_append, run_insert, process_document, h]
    simp
  | d :: pre, post, st => by
    have ih := run_insert_skip_doc docId doc h pre post
      (process_document st d.1 d.2).1
    simp only [List.cons_append, run_insert, List.append_eq, ih]

theorem writer_step_sourceFiles_mono (db : DB) (f : IngestFile) (x : String)
    (h : x ∈ db.sourceFiles) : x ∈ (writer_step db f).sourceFiles := by
  unfold writer_step insert_data
  split
  · split
    · exact h
    · exact ledger_add_mem_mono _ _ _ h
  · exact h

theorem foldl_writer_sourceFiles_mono :
    ∀ (l : List IngestFile) (db : DB) (x : String), x ∈ db.sourceFiles →
      x ∈ (l.foldl writer_step db).sourceFiles
  | [], _, _, h => h
  | f :: l, db, x, h => by
    simp only [List.foldl_cons]
    exact foldl_writer_sourceFiles_mono l _ x
      (writer_step_sourceFiles_mono db f x h)

theorem foldl_writer_success_ledgered :
    ∀ (l : List IngestFile) (db : DB) (f : IngestFile), f ∈ l →
      f.parseOk = true → f.commitFails = false →
      f.name ∈ (l.foldl writer_step db).sourceFiles
  | [], _, _, h, _, _ => absurd h (by simp)
  | g :: l, db, f, h, hp, hc => by
    simp only [List.foldl_cons]
    rcases List.mem_cons.mp h with hh | hh
    · subst hh
      refine foldl_writer_sourceFiles_mono l _ _ ?_
      unfold writer_step insert_data
      rw [if_pos hp, if_neg (by simp [hc])]
      exact ledger_add_mem_self _ _
    · exact foldl_writer_success_ledgered l _ f hh hp hc

theorem writer_step_id_of_parse (db : DB) (f : IngestFile)
    (h : f.parseOk = false) : writer_step db f = db := by
  unfold writer_step
  rw [if_neg (by simp [h])]

theorem writer_step_id_of_commit (db : DB) (f : IngestFile)
    (h : f.commitFails = true) : writer_step db f = db := by
  unfold writer_step insert_data
  rw [if_pos h]
  split <;> rfl

theorem foldl_writer_id :
    ∀ (l : List IngestFile) (db : DB),
      (∀ f ∈ l, writer_step db f = db) → l.foldl writer_step db = db
  | [], _, _ => rfl
  | f :: l, db, h => by
    simp only [List.foldl_cons]
    rw [h f (by simp)]
    exact foldl_writer_id l db (fun g hg => h g (List.mem_cons_of_mem _ hg))

end CopyLoader

/-- C1: the Writer's commit of one parsed batch file is all-or-nothing.
An error raised anywhere before commit rolls the transaction back, leaving
the store (data tables AND ledger) exactly as it was.  On success the
ledger gains the file's entry, all pre-existing rows are preserved, exactly
the batch's derived sentence and occurrence rows are appended, every valid
document id of the batch is present in `documents`, and every entity type
the batch names is present in `named_entities`.  The counting and seeding
conjuncts assume the batch is span-complete (the documented input format):
a document listing an entity type without a parallel span list raises
`KeyError` mid-document, which the per-document handler turns into
skipping the rest of that document while the file still commits. -/
theorem writer_commit_all_or_nothing (db : CopyLoader.DB)
    (data : CopyLoader.FileData) (f : String)
    (hspan : CopyLoader.span_complete data) :
    (CopyLoader.insert_data db data f true).1 = db
    ∧ (CopyLoader.insert_data db data f false).1.sourceFiles
        = CopyLoader.ledger_add db.sourceFiles f
    ∧ f ∈ (CopyLoader.insert_data db data f false).1.sourceFiles
    ∧ db.store.documents <+:
        (CopyLoader.insert_data db data f false).1.store.documents
    ∧ db.store.sentences <+:
        (CopyLoader.insert_data db data f false).1.store.sentences
    ∧ db.store.namedEntities <+:
        (CopyLoader.insert_data db data f false).1.store.namedEntities
    ∧ db.store.entityOccurrences <+:
        (CopyLoader.insert_data db data f false).1.store.entityOccurrences
    ∧ (CopyLoader.insert_data db data f false).1.store.sentences.length
        = db.store.sentences.length + CopyLoader.batch_sentence_count data
    ∧ (CopyLoader.insert_data db data f false).1.store.entityOccurrences.length
        = db.store.entityOccurrences.length + CopyLoader.batch_occ_count data
    ∧ ((CopyLoader.valid_docs data).map (fun d => d.1)).all
        (fun i =>
          ((CopyLoader.insert_data db data f
            false).1.store.documents.map (·.1)).contains i) = true
    ∧ (CopyLoader.batch_entity_types data).all
        (fun t =>
          ((CopyLoader.insert_data db data f
            false).1.store.namedEntities.map (·.2)).contains t) = true := by
  refine ⟨rfl, rfl, CopyLoader.ledger_add_mem_self _ _,
    CopyLoader.run_insert_documents_extends _ data,
    CopyLoader.run_insert_sentences_extends _ data,
    CopyLoader.run_insert_ne_extends _ data,
    CopyLoader.run_insert_occ_extends _ data,
    CopyLoader.run_insert_sentences_length _ data,
    CopyLoader.run_insert_occ_length _ data hspan, ?_, ?_⟩
  · refine List.all_eq_true.mpr ?_
    intro i hi
    obtain ⟨d, hd, hdi⟩ := List.mem_map.mp hi
    subst hdi
    simpa using CopyLoader.run_insert_doc_mem db.store data d hd
  · refine List.all_eq_true.mpr ?_
    intro t ht
    simpa using CopyLoader.run_insert_types_mem db.store data hspan t ht

/-- Witness for C1: the single-document batch `[(1, docExample)]` is
span-complete; instantiating the theorem at it over an empty store shows
the rollback identity and the committed row counts concretely. -/
theorem writer_commit_all_or_nothing_witness :
    CopyLoader.span_complete [(1, docExample)]
    ∧ ((CopyLoader.insert_data ⟨emptyStore, []⟩ [(1, docExample)]
          "batch1.json" true).1 = ⟨emptyStore, []⟩
      ∧ (CopyLoader.insert_data ⟨emptyStore, []⟩ [(1, docExample)]
          "batch1.json" false).1.sourceFiles
          = CopyLoader.ledger_add
              (⟨emptyStore, []⟩ : CopyLoader.DB).sourceFiles "batch1.json"
      ∧ "batch1.json" ∈ (CopyLoader.insert_data ⟨emptyStore, []⟩
          [(1, docExample)] "batch1.json" false).1.sourceFiles
      ∧ (⟨emptyStore, []⟩ : CopyLoader.DB).store.documents <+:
          (CopyLoader.insert_data ⟨emptyStore, []⟩ [(1, docExample)]
            "batch1.json" false).1.store.documents
      ∧ (⟨emptyStore, []⟩ : CopyLoader.DB).store.sentences <+:
          (CopyLoader.insert_data ⟨emptyStore, []⟩ [(1, docExample)]
            "batch1.json" false).1.store.sentences
      ∧ (⟨emptyStore, []⟩ : CopyLoader.DB).store.namedEntities <+:
          (CopyLoader.insert_data ⟨emptyStore, []⟩ [(1, docExample)]
            "batch1.json" false).1.store.namedEntities
      ∧ (⟨emptyStore, []⟩ : CopyLoader.DB).store.entityOccurrences <+:
          (CopyLoader.insert_data ⟨emptyStore, []⟩ [(1, docExample)]
            "batch1.json" false).1.store.entityOccurrences
      ∧ (CopyLoader.insert_data ⟨emptyStore, []⟩ [(1, docExample)]
            "batch1.json" false).1.store.sentences.length
          = (⟨emptyStore, []⟩ : CopyLoader.DB).store.sentences.length
              + CopyLoader.batch_sentence_count [(1, docExample)]
      ∧ (CopyLoader.insert_data ⟨emptyStore, []⟩ [(1, docExample)]
            "batch1.json" false).1.store.entityOccurrences.length
          = (⟨emptyStore, []⟩ : CopyLoader.DB).store.entityOccurrences.length
              + CopyLoader.batch_occ_count [(1, docExample)]
      ∧ ((CopyLoader.valid_docs [(1, docExample)]).map (fun d => d.1)).all
          (fun i =>
            ((CopyLoader.insert_data ⟨emptyStore, []⟩ [(1, docExample)]
              "batch1.json" false).1.store.documents.map (·.1)).contains i)
          = true
      ∧ (CopyLoader.batch_entity_types [(1, docExample)]).all
          (fun t =>
            ((CopyLoader.insert_data ⟨emptyStore, []⟩ [(1, docExample)]
              "batch1.json" false).1.store.namedEntities.map (·.2)).contains t)
          = true) :=
  ⟨by unfold CopyLoader.span_complete; decide,
   writer_commit_all_or_nothing ⟨emptyStore, []⟩ [(1, docExample)]
     "batch1.json" (by unfold CopyLoader.span_complete; decide)⟩

/-- C7: re-running the ingestion pipeline over the same candidate file set
is a no-op: the scan phase set-differences the candidates against the
ledger loaded up front, every file committed by the first run is in the
ledger, and a file the first run could not parse or commit behaves
identically (and changes nothing) on the retry, so the store after the
second run equals the store after the first. -/
theorem ingestion_idempotent (db : CopyLoader.DB)
    (files : List CopyLoader.IngestFile) :
    CopyLoader.load_json_to_db (CopyLoader.load_json_to_db db files) files
      = CopyLoader.load_json_to_db db files := by
  have hid : ∀ f ∈ files.filter
      (fun g =>
        !(CopyLoader.load_json_to_db db files).sourceFiles.contains g.name),
      CopyLoader.writer_step (CopyLoader.load_json_to_db db files) f
        = CopyLoader.load_json_to_db db files := by
    intro f hf
    obtain ⟨hfiles, hnotin⟩ := List.mem_filter.mp hf
    have hnmem : f.name ∉
        (CopyLoader.load_json_to_db db files).sourceFiles := by
      simpa using hnotin
    by_cases hp : f.parseOk
    · by_cases hc : f.commitFails
      · exact CopyLoader.writer_step_id_of_commit _ _ hc
      · exfalso
        apply hnmem
        have hnot0 : f.name ∉ db.sourceFiles := fun hmem0 =>
          hnmem (CopyLoader.foldl_writer_sourceFiles_mono _ db f.name hmem0)
        have hf1 : f ∈ files.filter
            (fun g => !db.sourceFiles.contains g.name) :=
          List.mem_filter.mpr ⟨hfiles, by simpa using hnot0⟩
        exact CopyLoader.foldl_writer_success_ledgered _ db f hf1 hp
          (by simpa using hc)
    · exact CopyLoader.writer_step_id_of_parse _ _ (by simpa using hp)
  exact CopyLoader.foldl_writer_id _ _ hid

/-- C8: a document of a batch missing its required `title` field is skipped
while every other document of the file is still written — the store and the
inserted count come out as if the document were absent — whereas a file
whose top-level structure fails to parse is never handed to the writer at
all: the store is left untouched for that file. -/
theorem parser_skips_incomplete_documents (st : CopyLoader.Store)
    (pre post : CopyLoader.FileData) (docId : Nat)
    (doc : CopyLoader.DocumentJson) (h : doc.title = none) :
    CopyLoader.run_insert st (pre ++ (docId, doc) :: post)
      = CopyLoader.run_insert st (pre ++ post)
    ∧ ∀ (db : CopyLoader.DB) (name : String) (data : CopyLoader.FileData)
        (b : Bool),
        CopyLoader.writer_step db ⟨name, data, false, b⟩ = db :=
  ⟨CopyLoader.run_insert_skip_doc docId doc h pre post st,
   fun _ _ _ _ => rfl⟩

/-- Witness for C8: a concrete batch holding a title-less document and a
well-formed one loads exactly like the batch holding only the well-formed
document. -/
theorem parser_skips_incomplete_documents_witness :
    badDocExample.title = none
    ∧ CopyLoader.run_insert emptyStore [(2, badDocExample), (1, docExample)]
        = CopyLoader.run_insert emptyStore [(1, docExample)] :=
  ⟨rfl, (parser_skips_incomplete_documents emptyStore [] [(1, docExample)] 2
      badDocExample rfl).1⟩

/-! ### Frequency-pass lemmas (`db_easyner.py`, `db_statistics.py`) -/

namespace Stats

theorem group_doc_fq_pos (db : DB) (k : Nat × String)
    (hk : k ∈ doc_fq_groups db) : 1 ≤ group_doc_fq db k := by
  unfold doc_fq_groups at hk
  obtain ⟨x, hx, hkey⟩ := List.mem_map.mp (List.mem_dedup.mp hk)
  unfold group_doc_fq
  have hxf : x ∈ (joined_occs db).filter (fun y => decide (occ_key y.1 = k)) :=
    List.mem_filter.mpr ⟨hx, by simp [hkey]⟩
  have hx2 : x.2 ∈ (((joined_occs db).filter
      (fun y => decide (occ_key y.1 = k))).map (fun y => y.2)).dedup :=
    List.mem_dedup.mpr (List.mem_map.mpr ⟨x, hxf, rfl⟩)
  exact List.length_pos.mpr (List.ne_nil_of_mem hx2)

end Stats

/-- C9: every row the entity-frequency pass writes into `entity_fq` has
`doc_fq ≥ 1` (each group key written comes from at least one joined
occurrence, so its distinct-document set is nonempty), and the resulting
table is a permutation of the pre-existing rows plus the written ones. -/
theorem count_entity_fq_doc_fq_pos (db : Stats.DB) (row : Stats.EntityFqRow)
    (hrow : row ∈ Stats.entity_fq_inserted db) :
    1 ≤ row.docFq
    ∧ List.Perm ((Stats.count_entity_fq db).entityFq)
        (db.entityFq ++ Stats.entity_fq_inserted db) := by
  refine ⟨?_, List.mergeSort_perm _ _⟩
  unfold Stats.entity_fq_inserted at hrow
  obtain ⟨q, hq, hqrow⟩ := List.mem_map.mp hrow
  obtain ⟨-, hq2⟩ := List.of_mem_zip hq
  obtain ⟨k, hk, hkq⟩ := List.mem_map.mp hq2
  have : row.docFq = Stats.group_doc_fq db k := by
    rw [← hqrow, ← hkq]
  rw [this]
  exact Stats.group_doc_fq_pos db k hk

/-- Witness for C9: the row the pass derives from the one-occurrence store
is written with `doc_fq = 1`. -/
theorem count_entity_fq_doc_fq_pos_witness :
    (⟨1, "X", 1, 1⟩ : Stats.EntityFqRow) ∈ Stats.entity_fq_inserted statsDb3
    ∧ 1 ≤ (⟨1, "X", 1, 1⟩ : Stats.EntityFqRow).docFq :=
  ⟨by decide, (count_entity_fq_doc_fq_pos statsDb3 ⟨1, "X", 1, 1⟩ (by decide)).1⟩

/-- C4: on the store as ingestion leaves it (`intra_doc_fq` seeded 0), the
term-frequency pass writes `intra_doc_fq = k = 2` correctly but writes
`tf = 0/10`, not `k/W = 2/10`: the SET clause's division reads the
PRE-update `intra_doc_fq`.  Only a second run of the pass, now reading the
stored count 2, writes `tf = 2/10`. -/
theorem term_fq_pass_divides_stale_value :
    ((Stats.update_db_with_entity_occurrence_term_fq statsDb4).occurrences.map
        (fun o => o.intraDocFq)) = [some 2, some 2]
    ∧ ((Stats.update_db_with_entity_occurrence_term_fq statsDb4).occurrences.map
        (fun o => o.tf)) = [some 0, some 0]
    ∧ ¬ ((0 : ℝ) = 2 / 10)
    ∧ ((Stats.update_db_with_entity_occurrence_term_fq
          (Stats.update_db_with_entity_occurrence_term_fq
            statsDb4)).occurrences.map (fun o => o.tf))
        = [some ((2 : ℝ) / 10), some ((2 : ℝ) / 10)] := by
  refine ⟨?_, ?_, by norm_num, ?_⟩ <;>
    simp [Stats.update_db_with_entity_occurrence_term_fq, statsDb4,
      Stats.intra_doc_count, List.find?, List.filter]

/-! ### Summary-stage lemmas (`db_easyner.py`, `sum_cooccurences`) -/

namespace Summary

theorem summary_insert_occurrences (db : DB) (q : String × String) :
    (summary_insert db q).occurrences = db.occurrences := rfl

theorem summary_insert_pair_keys (db : DB) (q : String × String) :
    (summary_insert db q).cooccurrences.map pair_key
      = db.cooccurrences.map pair_key := by
  unfold summary_insert
  simp only [List.map_map]
  refine List.map_congr_left ?_
  intro r _
  by_cases h : (r.e1Text, r.e2Text) = q
  · simp [Function.comp, pair_key, h]
  · simp [Function.comp, pair_key, h]

theorem pair_count_congr (rows1 rows2 : List CoocRow) (p : String × String)
    (h : rows1.map pair_key = rows2.map pair_key) :
    pair_count rows1 p = pair_count rows2 p := by
  have e : ∀ rows : List CoocRow,
      pair_count rows p
        = ((rows.map pair_key).filter (fun k => decide (k = p))).length := by
    intro rows
    unfold pair_count
    rw [List.filter_map, List.length_map]
    rfl
  rw [e, e, h]

theorem summary_filter_nil_forall (rows : List SummaryRow)
    (p : String × String)
    (h : rows.filter (fun r => decide (summary_key r = p)) = []) :
    ∀ a ∈ rows, ¬((a.e1Text, a.e2Text) = p) := by
  intro a ha hcon
  have hmem : a ∈ rows.filter (fun r => decide (summary_key r = p)) :=
    List.mem_filter.mpr ⟨ha, by simp [summary_key, hcon]⟩
  rw [h] at hmem
  simp at hmem

theorem foldl_summary_filter_not_mem (p : String × String) :
    ∀ (ps : List (String × String)) (db0 : DB), p ∉ ps →
      ((ps.foldl summary_insert db0).summary).filter
          (fun r => decide (summary_key r = p))
        = db0.summary.filter (fun r => decide (summary_key r = p))
  | [], _, _ => rfl
  | q :: ps, db0, hnp => by
    simp only [List.foldl_cons]
    rw [foldl_summary_filter_not_mem p ps _
      (fun h => hnp (List.mem_cons_of_mem _ h))]
    have hqp : q ≠ p := fun h => hnp (h ▸ List.mem_cons_self _ _)
    unfold summary_insert
    simp [List.filter_append, summary_key, hqp]

theorem foldl_summary_filter_mem (db : DB) (p : String × String) :
    ∀ (ps : List (String × String)) (db0 : DB), ps.Nodup → p ∈ ps →
      db0.cooccurrences.map pair_key = db.cooccurrences.map pair_key →
      db0.occurrences = db.occurrences →
      db0.summary.filter (fun r => decide (summary_key r = p)) = [] →
      ∃ i, ((ps.foldl summary_insert db0).summary).filter
          (fun r => decide (summary_key r = p))
        = [⟨i, p.1, p.2, pair_count db.cooccurrences p,
            (pair_count db.cooccurrences p : ℚ)
              * avg_tf_idf db.occurrences p.1 * avg_tf_idf db.occurrences p.2,
            avg_tf_idf db.occurrences p.1, avg_tf_idf db.occurrences p.2⟩]
  | [], _, _, hp, _, _, _ => absurd hp (by simp)
  | q :: ps, db0, hnd, hp, hck, hoc, hflt => by
    simp only [List.foldl_cons]
    rcases List.mem_cons.mp hp with hqp | hp'
    · subst hqp
      have hout := foldl_summary_filter_not_mem p ps (summary_insert db0 p)
        (List.nodup_cons.mp hnd).1
      refine ⟨(db0.summary.map (·.id)).foldr max 0 + 1, ?_⟩
      rw [hout]
      have hpc : pair_count db0.cooccurrences p
          = pair_count db.cooccurrences p := pair_count_congr _ _ _ hck
      unfold summary_insert
      simp [List.filter_append, summary_key, hpc, hoc]
      exact summary_filter_nil_forall db0.summary p hflt
    · have hqp : q ≠ p := fun h => (List.nodup_cons.mp hnd).1 (h ▸ hp')
      refine foldl_summary_filter_mem db p ps (summary_insert db0 q)
        (List.nodup_cons.mp hnd).2 hp' ?_ hoc ?_
      · rw [summary_insert_pair_keys]
        exact hck
      · unfold summary_insert
        simp [List.filter_append, summary_key, hqp]
        exact summary_filter_nil_forall db0.summary p hflt

end Summary

/-- C5: starting a fresh summary stage (empty `coentity_summary`, no pair
summarised yet), every distinct `(e1_text, e2_text)` pair of
`entity_cooccurrences` receives exactly one summary row, whose `fq` is the
number of co-occurrence rows with those texts and whose `weighted_fq` is
`fq * mean(tf_idf over e1_text occurrences) * mean(tf_idf over e2_text
occurrences)`.  The non-emptiness hypothesis `hne` delimits the embedding's
domain: on an empty occurrence list the source raises `ZeroDivisionError`
and writes nothing. -/
theorem sum_cooccurences_one_row_per_pair (db : Summary.DB)
    (h0 : ∀ r ∈ db.cooccurrences, r.summaryId = none)
    (hs : db.summary = [])
    (hne : ∀ q ∈ Summary.unique_pairs db,
      (Summary.tf_idf_values db.occurrences q.1).length ≠ 0
      ∧ (Summary.tf_idf_values db.occurrences q.2).length ≠ 0)
    (p : String × String)
    (hp : p ∈ (db.cooccurrences.map Summary.pair_key).dedup) :
    ∃ i, ((Summary.sum_cooccurences db).summary.filter
        (fun r => decide (Summary.summary_key r = p)))
      = [⟨i, p.1, p.2, Summary.pair_count db.cooccurrences p,
          (Summary.pair_count db.cooccurrences p : ℚ)
            * Summary.avg_tf_idf db.occurrences p.1
            * Summary.avg_tf_idf db.occurrences p.2,
          Summary.avg_tf_idf db.occurrences p.1,
          Summary.avg_tf_idf db.occurrences p.2⟩] := by
  have huniq : Summary.unique_pairs db
      = (db.cooccurrences.map Summary.pair_key).dedup := by
    unfold Summary.unique_pairs
    rw [List.filter_eq_self.mpr (fun r hr => by simp [h0 r hr])]
  obtain ⟨i, hi⟩ := Summary.foldl_summary_filter_mem db p
    (Summary.unique_pairs db) db (huniq ▸ List.nodup_dedup _)
    (huniq ▸ hp) rfl rfl (by rw [hs]; rfl)
  refine ⟨i, ?_⟩
  have hperm := (List.mergeSort_perm
    ((Summary.unique_pairs db).foldl Summary.summary_insert db).summary
    Summary.summary_order).filter (fun r => decide (Summary.summary_key r = p))
  rw [hi] at hperm
  exact hperm.eq_singleton

/-- Witness for C5, realising the specification's numeric scenario: the
pair (A, B) occurs 3 times, the means are 2.0 and 0.5, and the summary row
carries `fq = 3` and `weighted_fq = 3 * 2.0 * 0.5 = 3.0`. -/
theorem sum_cooccurences_one_row_per_pair_witness :
    ("A", "B") ∈ (summaryDb5.cooccurrences.map Summary.pair_key).dedup
    ∧ (∃ i, ((Summary.sum_cooccurences summaryDb5).summary.filter
        (fun r => decide (Summary.summary_key r = ("A", "B"))))
      = [⟨i, "A", "B", Summary.pair_count summaryDb5.cooccurrences ("A", "B"),
          (Summary.pair_count summaryDb5.cooccurrences ("A", "B") : ℚ)
            * Summary.avg_tf_idf summaryDb5.occurrences "A"
            * Summary.avg_tf_idf summaryDb5.occurrences "B",
          Summary.avg_tf_idf summaryDb5.occurrences "A",
          Summary.avg_tf_idf summaryDb5.occurrences "B"⟩])
    ∧ Summary.pair_count summaryDb5.cooccurrences ("A", "B") = 3
    ∧ (Summary.pair_count summaryDb5.cooccurrences ("A", "B") : ℚ)
        * Summary.avg_tf_idf summaryDb5.occurrences "A"
        * Summary.avg_tf_idf summaryDb5.occurrences "B" = 3 :=
  ⟨by decide,
   sum_cooccurences_one_row_per_pair summaryDb5 (by decide) rfl (by decide)
     ("A", "B") (by decide),
   by decide,
   by
     have h1 : Summary.tf_idf_values summaryDb5.occurrences "A" = [2] := by
       simp [Summary.tf_idf_values, Summary.ids_of_text, summaryDb5,
         List.filter, List.contains]
     have h2 : Summary.tf_idf_values summaryDb5.occurrences "B" = [1/2] := by
       simp [Summary.tf_idf_values, Summary.ids_of_text, summaryDb5,
         List.filter, List.contains]
     have h3 : Summary.pair_count summaryDb5.cooccurrences ("A", "B") = 3 := by
       decide
     rw [Summary.avg_tf_idf, Summary.avg_tf_idf, h1, h2, h3]
     norm_num⟩

/-! ### IDF / TF-IDF pass lemmas -/

namespace Stats

theorem joined_keys_of_total (db : DB) :
    ∀ l : List Occ, (∀ o ∈ l, (occ_joins_sentence db o).isSome) →
      (l.filterMap (fun o =>
        (occ_joins_sentence db o).map (fun p => (o, p)))).map
          (fun x => occ_key x.1)
        = l.map occ_key
  | [], _ => rfl
  | o :: l, h => by
    obtain ⟨p, hp⟩ :=
      Option.isSome_iff_exists.mp (h o (List.mem_cons_self _ _))
    simp only [List.filterMap_cons, hp, Option.map_some', List.map_cons]
    rw [joined_keys_of_total db l (fun x hx => h x (List.mem_cons_of_mem _ hx))]

theorem doc_fq_groups_eq (db : DB)
    (hj : ∀ o ∈ db.occurrences, (occ_joins_sentence db o).isSome) :
    doc_fq_groups db = fq_groups db.occurrences := by
  unfold doc_fq_groups fq_groups joined_occs
  rw [joined_keys_of_total db db.occurrences hj]

theorem entity_fq_inserted_eq (db : DB)
    (hj : ∀ o ∈ db.occurrences, (occ_joins_sentence db o).isSome) :
    entity_fq_inserted db
      = (fq_groups db.occurrences).map
          (fun k =>
            ⟨k.1, k.2, group_fq db.occurrences k, group_doc_fq db k⟩) := by
  unfold entity_fq_inserted
  rw [doc_fq_groups_eq db hj, List.zip_map', List.map_map]
  rfl

theorem entity_fq_inserted_keys (db : DB)
    (hj : ∀ o ∈ db.occurrences, (occ_joins_sentence db o).isSome) :
    (entity_fq_inserted db).map (fun r => (r.entityId, r.entityText))
      = fq_groups db.occurrences := by
  rw [entity_fq_inserted_eq db hj, List.map_map]
  exact Eq.trans (List.map_congr_left (fun k _ => rfl)) (List.map_id _)

theorem find?_key_unique :
    ∀ (rows : List EntityFqRow),
      ((rows.map (fun r => (r.entityId, r.entityText))).Nodup) →
      ∀ r0 ∈ rows,
      rows.find?
          (fun r => r.entityId == r0.entityId && r.entityText == r0.entityText)
        = some r0
  | [], _, r0, h => absurd h (by simp)
  | r :: rows, hnd, r0, h => by
    rw [List.map_cons, List.nodup_cons] at hnd
    rcases List.mem_cons.mp h with hh | hh
    · subst hh
      rw [List.find?_cons_of_pos _ (by simp)]
    · have hne :
          (r.entityId == r0.entityId && r.entityText == r0.entityText)
            = false := by
        by_contra hcon
        rw [Bool.not_eq_false, Bool.and_eq_true, beq_iff_eq, beq_iff_eq]
          at hcon
        exact hnd.1 (List.mem_map.mpr
          ⟨r0, hh, by simp [hcon.1, hcon.2]⟩)
      rw [List.find?_cons_of_neg _ (by simp [hne])]
      exact find?_key_unique rows hnd.2 r0 hh

theorem lookup_count_entity_fq (db : DB) (hfq : db.entityFq = [])
    (hj : ∀ o ∈ db.occurrences, (occ_joins_sentence db o).isSome)
    (o : Occ) (ho : o ∈ db.occurrences) :
    lookup_entity_fq (count_entity_fq db).entityFq o.entityId o.entityText
      = some ⟨o.entityId, o.entityText, group_fq db.occurrences (occ_key o),
              group_doc_fq db (occ_key o)⟩ := by
  unfold count_entity_fq lookup_entity_fq
  simp only [hfq, List.nil_append]
  have hperm : List.Perm ((entity_fq_inserted db).mergeSort entity_fq_order)
      (entity_fq_inserted db) := List.mergeSort_perm _ _
  have hnodup : (((entity_fq_inserted db).mergeSort entity_fq_order).map
      (fun r => (r.entityId, r.entityText))).Nodup := by
    rw [(hperm.map (fun r => (r.entityId, r.entityText))).nodup_iff,
      entity_fq_inserted_keys db hj]
    exact List.nodup_dedup _
  have hr0 : EntityFqRow.mk o.entityId o.entityText
      (group_fq db.occurrences (occ_key o)) (group_doc_fq db (occ_key o))
      ∈ (entity_fq_inserted db).mergeSort entity_fq_order := by
    rw [hperm.mem_iff, entity_fq_inserted_eq db hj]
    exact List.mem_map.mpr
      ⟨occ_key o, List.mem_dedup.mpr (List.mem_map.mpr ⟨o, ho, rfl⟩), rfl⟩
  exact find?_key_unique _ hnodup _ hr0

theorem DB.occ_congr {a : DB} {l1 l2 : List Occ} (h : l1 = l2) :
    ({ a with occurrences := l1 } : DB)
      = { a with occurrences := l2 } := by
  rw [h]

end Stats

/-- C3: after the frequency pass (`count_entity_fq`, run on a fresh
`entity_fq` table) the IDF / TF-IDF pass writes, to every occurrence,
`idf = ln(N / doc_fq)` — `N` the total number of documents in the store,
`doc_fq` the occurrence's `(entity-type, mention-text)` group's
distinct-document count — together with `inter_doc_fq = doc_fq` and
`tf_idf = tf * idf`; and the idf written is the same for every occurrence
of a group.  The hypothesis `hj` is referential integrity (every
occurrence's sentence row exists), `hN` is the pass's own non-empty-store
precondition. -/
theorem idf_tf_idf_passes (db : Stats.DB)
    (hfq : db.entityFq = [])
    (hN : 1 ≤ Stats.article_count db)
    (hj : ∀ o ∈ db.occurrences, (Stats.occ_joins_sentence db o).isSome) :
    (Stats.update_tf_idf (Stats.count_entity_fq db) = some
      { Stats.count_entity_fq db with
        occurrences := List.map (fun o =>
          { o with
            idf := some (Stats.idf_of db o),
            interDocFq := some ((Stats.group_doc_fq db (Stats.occ_key o) : Int)),
            tfIdf := o.tf.map (fun t => t * Stats.idf_of db o) })
          db.occurrences })
    ∧ ∀ o1 ∈ db.occurrences, ∀ o2 ∈ db.occurrences,
        Stats.occ_key o1 = Stats.occ_key o2 →
        Stats.idf_of db o1 = Stats.idf_of db o2 := by
  constructor
  · have hge : 1 ≤ Stats.article_count (Stats.count_entity_fq db) := hN
    simp only [Stats.update_tf_idf]
    rw [if_neg (Nat.not_lt.mpr hge)]
    refine congrArg some ?_
    refine Stats.DB.occ_congr ?_
    refine List.map_congr_left ?_
    intro o ho
    rw [Stats.lookup_count_entity_fq db hfq hj o ho]
    rfl
  · intro o1 _ o2 _ hk
    unfold Stats.idf_of
    rw [hk]

/-- Witness for C3: on the one-article store, the composed frequency and
IDF passes succeed and write the prescribed values. -/
theorem idf_tf_idf_passes_witness :
    statsDb3.entityFq = []
    ∧ 1 ≤ Stats.article_count statsDb3
    ∧ ((Stats.update_tf_idf (Stats.count_entity_fq statsDb3) = some
      { Stats.count_entity_fq statsDb3 with
        occurrences := List.map (fun o =>
          { o with
            idf := some (Stats.idf_of statsDb3 o),
            interDocFq := some
              ((Stats.group_doc_fq statsDb3 (Stats.occ_key o) : Int)),
            tfIdf := o.tf.map (fun t => t * Stats.idf_of statsDb3 o) })
          statsDb3.occurrences })
    ∧ ∀ o1 ∈ statsDb3.occurrences, ∀ o2 ∈ statsDb3.occurrences,
        Stats.occ_key o1 = Stats.occ_key o2 →
        Stats.idf_of statsDb3 o1 = Stats.idf_of statsDb3 o2) :=
  ⟨rfl, by decide, idf_tf_idf_passes statsDb3 rfl (by decide) (by decide)⟩

end EasyNER
